import Mathlib

/-!
# Generic OPP interface (drivers/base/power/opp/core.c) and arm64 SMP support
(arch/arm64/kernel/smp.c)

A shallow embedding of the OPP table manager, in the namespace OPP, and of the
CPU bring-up and the frequency capacity of smp.c, in the namespace SMP.  The
registry of device tables (the global list dev_opp_list) is an explicit state
that every writer takes and returns; the RCU readers are pure functions of that
state.  The use the writers make of the mutex dev_opp_list_lock is given as the
sequence of lock events of a call.

Conventions of the embedding

* unsigned long is 64 bits wide (the tree is an arm64 one); values of that type
  are natural numbers, and arithmetic that can wrap is reduced modulo 2^64;
* a struct device pointer is its address together with the part of the pointee
  that core.c reads; address 0 is NULL and the top 4095 addresses are the
  ERR_PTR range of linux/err.h;
* an OPP node is never written after it has been linked into a list: every
  writer fills a fresh node and then publishes it (list_add_rcu,
  list_replace_rcu).  A pointer to a node is therefore rendered as the node
  contents it points to;
* the outcome of each kzalloc/kmalloc is an input of the operation that
  performs it;
* the notifier chain, the clock handle and the deferred kfree of unlinked nodes
  have no effect on the registry and are left out of the state.
-/

namespace OPP

/-! ## Error numbers and error pointers -/

/-- Modelled from the spec: the errno headers are not among the sources; out of
memory, ENOMEM of asm-generic/errno-base.h. -/
def ENOMEM : Int := 12

/-- Modelled from the spec: EEXIST of asm-generic/errno-base.h (header not among
the sources), file exists. -/
def EEXIST : Int := 17

/-- Modelled from the spec: ENODEV of asm-generic/errno-base.h (header not among
the sources), no such device. -/
def ENODEV : Int := 19

/-- Modelled from the spec: EINVAL of asm-generic/errno-base.h (header not among
the sources), invalid argument. -/
def EINVAL : Int := 22

/-- Modelled from the spec: ERANGE of asm-generic/errno-base.h (header not among
the sources), result not representable. -/
def ERANGE : Int := 34

/-- Modelled from the spec: ENXIO of asm-generic/errno-base.h (header not among
the sources), no such device or address. -/
def ENXIO : Int := 6

/-- Modelled from the spec: ENODATA of asm-generic/errno.h (header not among the
sources), no data available. -/
def ENODATA : Int := 61

/-- Modelled from the spec: EOVERFLOW of asm-generic/errno.h (header not among
the sources), value too large for the data type. -/
def EOVERFLOW : Int := 75

/-- Modelled from the spec: MAX_ERRNO of linux/err.h (header not among the
sources), the largest errno that an error pointer can carry. -/
def MAX_ERRNO : Nat := 4095

/-- Number of values of an unsigned long. -/
def ULONG_SIZE : Nat := 2 ^ 64

/-- Modelled from the spec: NAME_MAX of linux/limits.h (header not among the
sources), the size of the name buffer of opp_parse_supplies. -/
def NAME_MAX : Nat := 255

/-- Modelled from the spec: the macro IS_ERR_VALUE of linux/err.h (header not
among the sources): the address lies in the last MAX_ERRNO values. -/
def IS_ERR_VALUE (x : Nat) : Bool := decide (ULONG_SIZE - MAX_ERRNO ≤ x)

/-- Modelled from the spec: IS_ERR of linux/err.h (header not among the
sources), on an address. -/
def IS_ERR (p : Nat) : Bool := IS_ERR_VALUE p

/-- Modelled from the spec: IS_ERR_OR_NULL of linux/err.h (header not among the
sources), on an address. -/
def IS_ERR_OR_NULL (p : Nat) : Bool := p == 0 || IS_ERR_VALUE p

/-- Modelled from the spec: ERR_PTR of linux/err.h (header not among the
sources), the address that stands for a negative error number. -/
def ERR_PTR (e : Int) : Nat := (e % (ULONG_SIZE : Int)).toNat

/-- Reading of an unsigned long as a long (two's complement). -/
def to_long (x : Nat) : Int :=
  if x % ULONG_SIZE < ULONG_SIZE / 2 then ((x % ULONG_SIZE : Nat) : Int)
  else ((x % ULONG_SIZE : Nat) : Int) - (ULONG_SIZE : Int)

/-- Conversion of an integer to unsigned long (reduction modulo 2^64). -/
def to_ulong (i : Int) : Nat := (i % (ULONG_SIZE : Int)).toNat

/-! ## Device tree accessors -/

/-- Modelled from the spec: the of_property_read_* calls of drivers/of are not
among the sources; their result is the value read, or one of the error numbers
these calls document. -/
inductive of_read (α : Type) where
  | ok (v : α)
  | einval
  | enodata
  | eoverflow
deriving DecidableEq

/-- The int that the of_property_* call returns. -/
def of_read.ret {α : Type} : of_read α → Int
  | .ok _ => 0
  | .einval => -EINVAL
  | .enodata => -ENODATA
  | .eoverflow => -EOVERFLOW

/-- Modelled from the spec: struct device_node is declared in linux/of.h, not
among the sources; of the node of a device, core.c reads the two properties
clock-latency and voltage-tolerance when it creates a table. -/
structure of_node where
  clock_latency : of_read Nat
  voltage_tolerance : of_read Nat
deriving DecidableEq

/-- Modelled from the spec: struct device is declared in linux/device.h, not
among the sources.  A struct device pointer is the address, and the of_node of
the pointee (none when dev->of_node is NULL). -/
structure device where
  addr : Nat
  of_node : Option of_node
deriving DecidableEq

/-- Modelled from the spec: struct property is declared in linux/of.h, not
among the sources.  A property is its value: the complete u32 cells in order
(none when the value pointer is NULL) and the number of bytes that follow the
last complete cell, so that the length is 4 times the number of cells plus
rest. -/
structure property where
  value : Option (List Nat)
  rest : Nat
deriving DecidableEq

/-- Modelled from the spec: of_property_count_u32_elems of drivers/of, on a
property that was found: -ENODATA without a value, -EINVAL when the length is
not a multiple of the cell size, else the number of cells, given here with the
cells that of_property_read_u32_array then reads. -/
def of_property_count_u32_elems (prop : property) : of_read (List Nat) :=
  match prop.value with
  | none => .enodata
  | some cells => if prop.rest % 4 ≠ 0 then .einval else .ok cells

/-- Modelled from the spec: of_property_read_u32 of drivers/of, on a property
that was found: -ENODATA without a value, -EOVERFLOW when the value is shorter
than one cell, else the first cell. -/
def of_property_read_u32 (prop : property) : of_read Nat :=
  match prop.value with
  | none => .enodata
  | some [] => .eoverflow
  | some (val :: _) => .ok val

/-- Modelled from the spec: struct device_node is declared in linux/of.h, not
among the sources.  A node of an operating-points-v2 table is given by the
answers of the of_* calls that _opp_add_static_v2 makes on it; props holds the
properties that are looked up by name. -/
structure device_node where
  addr : Nat
  opp_hz : of_read Nat
  turbo_mode : Bool
  clock_latency_ns : of_read Nat
  opp_suspend : Bool
  opp_supported_hw : List Nat
  props : List (String × property)

/-! ## Data model -/

/-- Modelled from the spec: struct dev_pm_opp is declared in opp.h, not among
the sources.  An OPP is a (frequency, voltage) operating tuple of a device,
with the further fields that core.c reads and writes; the list linkage, the
rcu_head and the back pointer dev_opp are positional in this embedding. -/
structure dev_pm_opp where
  available : Bool
  dynamic : Bool
  turbo : Bool
  rate : Nat
  u_volt : Nat
  u_volt_min : Nat
  u_volt_max : Nat
  u_amp : Nat
  clock_latency_ns : Nat
  np : Nat
deriving DecidableEq

/-- The node that kzalloc returns: every field zero. -/
def dev_pm_opp.zero : dev_pm_opp :=
  { available := false, dynamic := false, turbo := false, rate := 0, u_volt := 0,
    u_volt_min := 0, u_volt_max := 0, u_amp := 0, clock_latency_ns := 0, np := 0 }

/-- Modelled from the spec: struct device_opp and struct device_list_opp are
declared in opp.h, not among the sources.  The OPP table of a group of devices
has the fields that core.c reads and writes: dev_list holds the dev pointer of
each device_list_opp node; supported_hw_count is the length of supported_hw;
regulator is an address, an ERR_PTR when there is none. -/
structure device_opp where
  dev_list : List Nat
  opp_list : List dev_pm_opp
  np : Nat
  clock_latency_ns_max : Nat
  voltage_tolerance_v1 : Nat
  shared_opp : Bool
  suspend_opp : Option dev_pm_opp
  supported_hw : Option (List Nat)
  prop_name : Option String
  regulator : Nat
deriving DecidableEq

/-- The global list dev_opp_list, first table first. -/
abbrev Registry := List device_opp

/-- Pointer to a table as _find_device_opp returns it: an ERR_PTR, or the
position of the table in dev_opp_list together with the table. -/
inductive device_opp_ptr where
  | err (e : Int)
  | ptr (idx : Nat) (tbl : device_opp)
deriving DecidableEq

/-- Pointer to an OPP as the finders return it: NULL, an ERR_PTR, or a node. -/
inductive opp_ptr where
  | null
  | err (e : Int)
  | node (opp : dev_pm_opp)
deriving DecidableEq

/-- Modelled from the spec: kzalloc and kmalloc (linux/slab.h) are not among the
sources.  The outcome of the allocations an operation may perform is an input:
whether the allocation of an OPP node, of a device_opp and of a
device_list_opp succeeds. -/
structure kalloc where
  opp : Bool
  dev_opp : Bool
  list_dev : Bool
deriving DecidableEq

/-! ## Lookup -/

/-- The walk of _find_list_dev over dev_list, from position k. -/
def find_list_dev_from (dev : Nat) : List Nat → Nat → Option Nat
  | [], _ => none
  | d :: ds, k => if d = dev then some k else find_list_dev_from dev ds (k + 1)

/-- The device_list_opp node of dev in the table (its position in dev_list),
NULL (none) when the table does not list the device. -/
def _find_list_dev (dev : Nat) (dev_opp : device_opp) : Option Nat :=
  find_list_dev_from dev dev_opp.dev_list 0

/-- The walk of _find_device_opp over dev_opp_list, from position k. -/
def find_table (dev : Nat) : List device_opp → Nat → device_opp_ptr
  | [], _ => .err (-ENODEV)
  | t :: ts, k =>
    if (_find_list_dev dev t).isSome then .ptr k t else find_table dev ts (k + 1)

/-- Table of a device: -EINVAL for a NULL or error pointer, -ENODEV when no
table lists the device. -/
def _find_device_opp (r : Registry) (dev : device) : device_opp_ptr :=
  if IS_ERR_OR_NULL dev.addr then .err (-EINVAL) else find_table dev.addr r 0

/-! ## Readers -/

/-- Voltage of an available OPP, 0 for an invalid or unavailable one. -/
def dev_pm_opp_get_voltage (opp : opp_ptr) : Nat :=
  match opp with
  | .node o => if !o.available then 0 else o.u_volt
  | _ => 0

/-- Frequency of an available OPP, 0 for an invalid or unavailable one. -/
def dev_pm_opp_get_freq (opp : opp_ptr) : Nat :=
  match opp with
  | .node o => if !o.available then 0 else o.rate
  | _ => 0

/-- The suspend OPP of the device table, NULL unless it is set and the node it
points to has its available flag set. -/
def dev_pm_opp_get_suspend_opp (r : Registry) (dev : device) : opp_ptr :=
  match _find_device_opp r dev with
  | .err _ => .null
  | .ptr _ t =>
    match t.suspend_opp with
    | none => .null
    | some o => if !o.available then .null else .node o

/-- The counting loop of dev_pm_opp_get_opp_count.  count is an int in the
source; it is incremented once per available node, and a list cannot hold the
2^31 nodes that would wrap it, so the count is taken in the integers. -/
def count_available : List dev_pm_opp → Int → Int
  | [], count => count
  | o :: rest, count => count_available rest (if o.available then count + 1 else count)

/-- Number of available OPPs of the device, or the error of the lookup. -/
def dev_pm_opp_get_opp_count (r : Registry) (dev : device) : Int :=
  match _find_device_opp r dev with
  | .err e => e
  | .ptr _ t => count_available t.opp_list 0

/-- The search loop of dev_pm_opp_find_freq_exact; opp is the value the
variable holds when the loop is entered. -/
def exact_loop (freq : Nat) (available : Bool) : List dev_pm_opp → opp_ptr → opp_ptr
  | [], opp => opp
  | o :: rest, opp =>
    if o.available == available && o.rate == freq then .node o
    else exact_loop freq available rest opp

/-- First OPP of the table with the given rate and availability. -/
def dev_pm_opp_find_freq_exact (r : Registry) (dev : device) (freq : Nat)
    (available : Bool) : opp_ptr :=
  match _find_device_opp r dev with
  | .err e => .err e
  | .ptr _ t => exact_loop freq available t.opp_list (.err (-ERANGE))

/-- The search loop of dev_pm_opp_find_freq_ceil: the result and the value
left in *freq. -/
def ceil_loop : List dev_pm_opp → opp_ptr → Nat → opp_ptr × Nat
  | [], opp, freq => (opp, freq)
  | o :: rest, opp, freq =>
    if o.available && decide (o.rate ≥ freq) then (.node o, o.rate)
    else ceil_loop rest opp freq

/-- Ceil search.  The argument freq is the pointer (none for NULL); the second
component of the result is the content of *freq on return. -/
def dev_pm_opp_find_freq_ceil (r : Registry) (dev : device) (freq : Option Nat) :
    opp_ptr × Option Nat :=
  match freq with
  | none => (.err (-EINVAL), none)
  | some f =>
    if dev.addr = 0 then (.err (-EINVAL), some f)
    else
      match _find_device_opp r dev with
      | .err e => (.err e, some f)
      | .ptr _ t =>
        let res := ceil_loop t.opp_list (.err (-ERANGE)) f
        (res.1, some res.2)

/-- The search loop of dev_pm_opp_find_freq_floor. -/
def floor_loop (freq : Nat) : List dev_pm_opp → opp_ptr → opp_ptr
  | [], opp => opp
  | o :: rest, opp =>
    if o.available then
      if o.rate > freq then opp else floor_loop freq rest (.node o)
    else floor_loop freq rest opp

/-- Floor search, with the same rendering of the freq pointer as the ceil
search. -/
def dev_pm_opp_find_freq_floor (r : Registry) (dev : device) (freq : Option Nat) :
    opp_ptr × Option Nat :=
  match freq with
  | none => (.err (-EINVAL), none)
  | some f =>
    if dev.addr = 0 then (.err (-EINVAL), some f)
    else
      match _find_device_opp r dev with
      | .err e => (.err e, some f)
      | .ptr _ t =>
        match floor_loop f t.opp_list (.err (-ERANGE)) with
        | .node o => (.node o, some o.rate)
        | p => (p, some f)

/-! ## Writers -/

/-- Unlinks the device_list_opp node at the given position of dev_list (none is
a NULL node, which the callers never pass). -/
def _remove_list_dev (list_dev : Option Nat) (dev_opp : device_opp) : device_opp :=
  match list_dev with
  | none => dev_opp
  | some k => { dev_opp with dev_list := dev_opp.dev_list.eraseIdx k }

/-- Frees the table at position i when it holds no OPP and no blocking
resource (supported_hw, prop_name, regulator). -/
def _remove_device_opp (r : Registry) (i : Nat) : Registry :=
  match r[i]? with
  | none => r
  | some dev_opp =>
    if !dev_opp.opp_list.isEmpty then r
    else if dev_opp.supported_hw.isSome then r
    else if dev_opp.prop_name.isSome then r
    else if !IS_ERR dev_opp.regulator then r
    else r.eraseIdx i

/-- Unlinks an OPP from the table at position i and frees the table if that
left it empty.  pos is the position of the node in opp_list; none stands for a
node that was never linked (its list head still points to itself, so
list_del_rcu changes no list). -/
def _opp_remove (r : Registry) (i : Nat) (pos : Option Nat) : Registry :=
  match r[i]? with
  | none => r
  | some dev_opp =>
    match pos with
    | none => _remove_device_opp r i
    | some p =>
      _remove_device_opp
        (r.set i { dev_opp with opp_list := dev_opp.opp_list.eraseIdx p }) i

/-- The search loop shared by dev_pm_opp_remove and _opp_set_availability:
the first OPP with the given rate and its position, counted from k. -/
def find_rate (freq : Nat) : List dev_pm_opp → Nat → Option (Nat × dev_pm_opp)
  | [], _ => none
  | o :: rest, k => if o.rate = freq then some (k, o) else find_rate freq rest (k + 1)

/-- Removes the first OPP with the given rate from the table of the device. -/
def dev_pm_opp_remove (r : Registry) (dev : device) (freq : Nat) : Registry :=
  match _find_device_opp r dev with
  | .err _ => r
  | .ptr i dev_opp =>
    match find_rate freq dev_opp.opp_list 0 with
    | none => r
    | some (p, _) => _opp_remove r i (some p)

/-- Finds the table of the device or creates one at the head of dev_opp_list.
The outer none is the fault of reading dev->of_node through a NULL or error
pointer; the inner none is the NULL returned on allocation failure. -/
def _add_device_opp (m : kalloc) (r : Registry) (dev : device) :
    Option (Option (Nat × device_opp) × Registry) :=
  match _find_device_opp r dev with
  | .ptr i dev_opp => some (some (i, dev_opp), r)
  | .err _ =>
    if !m.dev_opp then some (none, r)
    else if !m.list_dev then some (none, r)
    else if IS_ERR_OR_NULL dev.addr then none
    else
      let lat : Nat :=
        match dev.of_node with
        | none => 0
        | some np => match np.clock_latency with
          | .ok val => val
          | _ => 0
      let tol : Nat :=
        match dev.of_node with
        | none => 0
        | some np => match np.voltage_tolerance with
          | .ok val => val
          | _ => 0
      let dev_opp : device_opp :=
        { dev_list := [dev.addr], opp_list := [], np := 0,
          clock_latency_ns_max := lat, voltage_tolerance_v1 := tol,
          shared_opp := false, suspend_opp := none, supported_hw := none,
          prop_name := none, regulator := ERR_PTR (- ENXIO) }
      some (some (0, dev_opp), dev_opp :: r)

/-- Allocates an OPP node and finds or creates the table of the device; the
inner none is the NULL returned when either allocation fails. -/
def _allocate_opp (m : kalloc) (r : Registry) (dev : device) :
    Option (Option (Nat × device_opp) × Registry) :=
  if !m.opp then some (none, r)
  else _add_device_opp m r dev

/-- Ordered insertion of new_opp into an OPP list: the return value and the
list afterwards.  The walk stops at the first node whose rate is not below the
new one; an equal rate is a duplicate and leaves the list as it is. -/
def _opp_add (new_opp : dev_pm_opp) : List dev_pm_opp → Int × List dev_pm_opp
  | [] => (0, [new_opp])
  | opp :: rest =>
    if new_opp.rate > opp.rate then
      ((_opp_add new_opp rest).1, opp :: (_opp_add new_opp rest).2)
    else if new_opp.rate < opp.rate then (0, new_opp :: opp :: rest)
    else
      (if opp.available && new_opp.u_volt == opp.u_volt then 0 else -EEXIST,
        opp :: rest)

/-- The node that _opp_add_v1 fills in.  u_volt arrives as a long; the
tolerance is computed in long arithmetic and stored in an unsigned long. -/
def opp_v1 (dev_opp : device_opp) (freq u_volt : Nat) (dynamic : Bool) : dev_pm_opp :=
  let tol : Nat :=
    to_ulong (Int.tdiv (to_long (to_ulong (to_long u_volt * dev_opp.voltage_tolerance_v1))) 100)
  { dev_pm_opp.zero with
    rate := freq
    u_volt := u_volt
    u_volt_min := to_ulong ((u_volt : Int) - (tol : Int))
    u_volt_max := to_ulong ((u_volt : Int) + (tol : Int))
    available := true
    dynamic := dynamic }

/-- Adds an OPP given by frequency and voltage (v1 bindings): the return value
and the registry afterwards; none is the fault of _add_device_opp. -/
def _opp_add_v1 (m : kalloc) (r : Registry) (dev : device) (freq u_volt : Nat)
    (dynamic : Bool) : Option (Int × Registry) :=
  match _allocate_opp m r dev with
  | none => none
  | some (none, r1) => some (-ENOMEM, r1)
  | some (some (i, dev_opp), r1) =>
    let new_opp := opp_v1 dev_opp freq u_volt dynamic
    let res := _opp_add new_opp dev_opp.opp_list
    if res.1 ≠ 0 then some (res.1, _opp_remove r1 i none)
    else some (0, r1.set i { dev_opp with opp_list := res.2 })

/-- Adds a dynamic OPP with the given frequency and voltage. -/
def dev_pm_opp_add (m : kalloc) (r : Registry) (dev : device) (freq u_volt : Nat) :
    Option (Int × Registry) :=
  _opp_add_v1 m r dev freq u_volt true

/-- The loop of _opp_is_supported, count running down to zero. -/
def supported_loop (hw cells : List Nat) : Nat → Bool
  | 0 => true
  | count + 1 =>
    match cells[count]? with
    | none => false
    | some version =>
      if version &&& hw.getD count 0 = 0 then false else supported_loop hw cells count

/-- Whether the node matches the hierarchy of versions set for the table. -/
def _opp_is_supported (dev_opp : device_opp) (np : device_node) : Bool :=
  match dev_opp.supported_hw with
  | none => true
  | some hw => supported_loop hw np.opp_supported_hw hw.length

/-- The call of_find_property(np, name, NULL). -/
def of_find_property (np : device_node) (name : String) : Option property :=
  np.props.lookup name

/-- The property that opp_parse_supplies settles on for a base name: the one
with the prop_name of the table appended (cut to the name buffer) if the table
has a prop_name and the node has that property, else the plain one. -/
def find_named_property (np : device_node) (dev_opp : device_opp) (base : String) :
    Option property :=
  let named : Option property :=
    match dev_opp.prop_name with
    | none => none
    | some ext => of_find_property np ((base ++ "-" ++ ext).take (NAME_MAX - 1))
  match named with
  | some prop => some prop
  | none => of_find_property np base

/-- Reads the voltages and the current of an OPP node: the return value and
the OPP with the fields that were written.  The count of cells is the length
of the property, so the read of that many cells that follows cannot fail. -/
def opp_parse_supplies (opp : dev_pm_opp) (np : device_node) (dev_opp : device_opp) :
    Int × dev_pm_opp :=
  match find_named_property np dev_opp "opp-microvolt" with
  | none => (0, opp)
  | some prop =>
    match of_property_count_u32_elems prop with
    | .ok microvolt =>
      if microvolt.length ≠ 1 ∧ microvolt.length ≠ 3 then (-EINVAL, opp)
      else
        let opp1 : dev_pm_opp :=
          { opp with
            u_volt := microvolt.getD 0 0
            u_volt_min := if microvolt.length = 1 then microvolt.getD 0 0 else microvolt.getD 1 0
            u_volt_max := if microvolt.length = 1 then microvolt.getD 0 0 else microvolt.getD 2 0 }
        match find_named_property np dev_opp "opp-microamp" with
        | none => (0, opp1)
        | some amp =>
          match of_property_read_u32 amp with
          | .ok val => (0, { opp1 with u_amp := val })
          | _ => (0, opp1)
    | e => (e.ret, opp)

/-- The node that _opp_add_static_v2 fills in before it parses the supplies. -/
def opp_v2 (np : device_node) (rate : Nat) : dev_pm_opp :=
  { dev_pm_opp.zero with
    rate := rate % ULONG_SIZE
    turbo := np.turbo_mode
    np := np.addr
    dynamic := false
    available := true
    clock_latency_ns :=
      match np.clock_latency_ns with
      | .ok val => val
      | _ => 0 }

/-- Adds the static OPP described by a node of an operating-points-v2 table:
the return value and the registry afterwards; none is the fault of
_add_device_opp. -/
def _opp_add_static_v2 (m : kalloc) (r : Registry) (dev : device) (np : device_node) :
    Option (Int × Registry) :=
  match _allocate_opp m r dev with
  | none => none
  | some (none, r1) => some (-ENOMEM, r1)
  | some (some (i, dev_opp), r1) =>
    match np.opp_hz with
    | .ok rate =>
      if !_opp_is_supported dev_opp np then some (0, _opp_remove r1 i none)
      else
        let parsed := opp_parse_supplies (opp_v2 np rate) np dev_opp
        if parsed.1 ≠ 0 then some (parsed.1, _opp_remove r1 i none)
        else
          let new_opp := parsed.2
          let res := _opp_add new_opp dev_opp.opp_list
          if res.1 ≠ 0 then some (res.1, _opp_remove r1 i none)
          else
            let suspend_opp : Option dev_pm_opp :=
              if np.opp_suspend then
                match dev_opp.suspend_opp with
                | some old => some old
                | none => some new_opp
              else dev_opp.suspend_opp
            let latency : Nat :=
              if new_opp.clock_latency_ns > dev_opp.clock_latency_ns_max then
                new_opp.clock_latency_ns
              else dev_opp.clock_latency_ns_max
            some (0, r1.set i { dev_opp with
              opp_list := res.2
              suspend_opp := suspend_opp
              clock_latency_ns_max := latency })
    | e => some (e.ret, _opp_remove r1 i none)

/-- Sets the availability of the first OPP with the given rate: the old node is
replaced, at its position, by a copy that differs in the available flag. -/
def _opp_set_availability (m : kalloc) (r : Registry) (dev : device) (freq : Nat)
    (availability_req : Bool) : Int × Registry :=
  if !m.opp then (-ENOMEM, r)
  else
    match _find_device_opp r dev with
    | .err e => (e, r)
    | .ptr i dev_opp =>
      match find_rate freq dev_opp.opp_list 0 with
      | none => (-ENODEV, r)
      | some (p, opp) =>
        if opp.available == availability_req then (0, r)
        else
          let new_opp : dev_pm_opp := { opp with available := availability_req }
          (0, r.set i { dev_opp with opp_list := dev_opp.opp_list.set p new_opp })

/-- Makes the OPP with the given rate available. -/
def dev_pm_opp_enable (m : kalloc) (r : Registry) (dev : device) (freq : Nat) :
    Int × Registry :=
  _opp_set_availability m r dev freq true

/-- Makes the OPP with the given rate unavailable. -/
def dev_pm_opp_disable (m : kalloc) (r : Registry) (dev : device) (freq : Nat) :
    Int × Registry :=
  _opp_set_availability m r dev freq false

/-- The list_for_each_entry_safe loop of dev_pm_opp_of_remove_table over the
nodes still to visit; pos is the position of the first of them in the table at
position i. -/
def remove_static_loop (i : Nat) : List dev_pm_opp → Nat → Registry → Registry
  | [], _, r => r
  | opp :: rest, pos, r =>
    if !opp.dynamic then remove_static_loop i rest pos (_opp_remove r i (some pos))
    else remove_static_loop i rest (pos + 1) r

/-- Frees the static OPPs of the table of the device, or only takes the device
off the table when other devices share it. -/
def dev_pm_opp_of_remove_table (r : Registry) (dev : device) : Registry :=
  match _find_device_opp r dev with
  | .err _ => r
  | .ptr i dev_opp =>
    if dev_opp.dev_list.length = 1 then remove_static_loop i dev_opp.opp_list 0 r
    else r.set i (_remove_list_dev (_find_list_dev dev.addr dev_opp) dev_opp)

/-! ## Properties of the registry and sample values -/

/-- The OPP list is in strictly increasing order of rate. -/
def strictly_increasing (l : List dev_pm_opp) : Prop :=
  List.Pairwise (fun a b => a.rate < b.rate) l

instance (l : List dev_pm_opp) : Decidable (strictly_increasing l) := by
  unfold strictly_increasing; infer_instance

/-- Every table of the registry has a strictly increasing OPP list. -/
def registry_sorted (r : Registry) : Prop := ∀ t ∈ r, strictly_increasing t.opp_list

/-- Registry states reachable from the empty registry by calls of
dev_pm_opp_add, _opp_add_static_v2, dev_pm_opp_remove, dev_pm_opp_enable,
dev_pm_opp_disable and dev_pm_opp_of_remove_table, with any arguments and any
outcome of the allocations; a call that faults reaches no state. -/
inductive Reachable : Registry → Prop
  | empty : Reachable []
  | add (m : kalloc) (r : Registry) (dev : device) (freq u_volt : Nat) (ret : Int)
      (r' : Registry) : Reachable r →
      dev_pm_opp_add m r dev freq u_volt = some (ret, r') → Reachable r'
  | add_static_v2 (m : kalloc) (r : Registry) (dev : device) (np : device_node) (ret : Int)
      (r' : Registry) : Reachable r →
      _opp_add_static_v2 m r dev np = some (ret, r') → Reachable r'
  | remove (r : Registry) (dev : device) (freq : Nat) : Reachable r →
      Reachable (dev_pm_opp_remove r dev freq)
  | enable (m : kalloc) (r : Registry) (dev : device) (freq : Nat) : Reachable r →
      Reachable (dev_pm_opp_enable m r dev freq).2
  | disable (m : kalloc) (r : Registry) (dev : device) (freq : Nat) : Reachable r →
      Reachable (dev_pm_opp_disable m r dev freq).2
  | of_remove_table (r : Registry) (dev : device) : Reachable r →
      Reachable (dev_pm_opp_of_remove_table r dev)

/-- The OPP list is sorted by increasing rate. -/
def sorted_by_rate (l : List dev_pm_opp) : Prop :=
  List.Pairwise (fun a b => a.rate ≤ b.rate) l

instance (l : List dev_pm_opp) : Decidable (sorted_by_rate l) := by
  unfold sorted_by_rate; infer_instance

/-- Every allocation succeeds. -/
def alloc_ok : kalloc := { opp := true, dev_opp := true, list_dev := true }

/-- The allocation of the OPP node fails. -/
def alloc_opp_fails : kalloc := { opp := false, dev_opp := true, list_dev := true }

/-- A valid device pointer without an of_node. -/
def sample_dev : device := { addr := 4096, of_node := none }

/-- An OPP as dev_pm_opp_add makes it on a table without voltage tolerance. -/
def sample_opp (rate u_volt : Nat) (available : Bool) : dev_pm_opp :=
  { dev_pm_opp.zero with
    rate := rate, u_volt := u_volt, u_volt_min := u_volt, u_volt_max := u_volt,
    available := available, dynamic := true }

/-- A table of sample_dev with the given OPP list and no blocking resource. -/
def sample_table (l : List dev_pm_opp) : device_opp :=
  { dev_list := [4096], opp_list := l, np := 0, clock_latency_ns_max := 0,
    voltage_tolerance_v1 := 0, shared_opp := false, suspend_opp := none,
    supported_hw := none, prop_name := none, regulator := ERR_PTR (- ENXIO) }

/-- Three OPPs in increasing order of rate, the lowest one unavailable. -/
def sample_opps : List dev_pm_opp :=
  [sample_opp 500 900 false, sample_opp 1000 1000 true, sample_opp 1500 1100 true]

/-- The OPP list with the available flag of every OPP at rate f set to a. -/
def with_availability (f : Nat) (a : Bool) (l : List dev_pm_opp) : List dev_pm_opp :=
  l.map (fun x => if x.rate = f then { x with available := a } else x)

/-- The OPP list without the OPPs at rate f. -/
def without_rate (f : Nat) (l : List dev_pm_opp) : List dev_pm_opp :=
  l.filter (fun x => decide (x.rate ≠ f))

/-- The table is one that _remove_device_opp frees once its OPP list is empty:
it holds no supported_hw, no prop_name and no regulator. -/
def unblocked (t : device_opp) : Bool :=
  !t.supported_hw.isSome && !t.prop_name.isSome && IS_ERR t.regulator

/-- A v2 node for 1000 Hz at 900 uV that carries opp-suspend. -/
def sample_np : device_node :=
  { addr := 8192, opp_hz := .ok 1000, turbo_mode := false, clock_latency_ns := .einval,
    opp_suspend := true, opp_supported_hw := [], props := [("opp-microvolt", { value := some [900], rest := 0 })] }

/-- The OPP that _opp_add_static_v2 makes of sample_np. -/
def sample_static_opp (available : Bool) : dev_pm_opp :=
  { dev_pm_opp.zero with
    rate := 1000, u_volt := 900, u_volt_min := 900, u_volt_max := 900,
    available := available, dynamic := false, np := 8192 }

/-- The table that _opp_add_static_v2 builds for sample_dev out of sample_np,
with the available flag of its one OPP as given; suspend_opp points to the
node that was added. -/
def sample_suspend_table (available : Bool) : device_opp :=
  { sample_table [sample_static_opp available] with
    suspend_opp := some (sample_static_opp true) }

/-! ## The list lock

The writers of core.c take the mutex dev_opp_list_lock around every change of
dev_opp_list, of a dev_list and of an opp_list.  The definitions below give,
for each writer, the sequence of lock events of a call: taking the mutex,
releasing it, and, in between, one write event for each call of a list
primitive (list_add_rcu, list_del_rcu, list_del, list_replace_rcu) and for each
assignment to a field of a table.  The branches are those of the writer itself,
so the events are given along the definitions of the writers above. -/

/-- Modelled from the spec: EBUSY of asm-generic/errno-base.h (header not among
the sources), device or resource busy. -/
def EBUSY : Int := 16

/-- Modelled from the spec: ENOENT of asm-generic/errno-base.h (header not among
the sources), no such file or directory. -/
def ENOENT : Int := 2

/-- What a writer does with dev_opp_list_lock and the lists it guards:
mutex_lock, mutex_unlock, and a write to a list or to a field of a table. -/
inductive lock_event where
  | lock
  | unlock
  | write
deriving DecidableEq

/-- Runs a sequence of lock events from the given state of the mutex (true when
held): the state at the end, or none if the mutex is taken while held, released
while not held, or a write is done without it. -/
def run_lock : Bool → List lock_event → Option Bool
  | held, [] => some held
  | held, .lock :: es => if held then none else run_lock true es
  | held, .unlock :: es => if held then run_lock false es else none
  | held, .write :: es => if held then run_lock true es else none

/-- The events start and end with the mutex released and every write is done
while it is held. -/
def lock_disciplined (es : List lock_event) : Prop := run_lock false es = some false

instance (es : List lock_event) : Decidable (lock_disciplined es) := by
  unfold lock_disciplined; infer_instance

/-- Every event is a write: the events of a helper that runs inside a locked
section of its caller. -/
def only_writes (es : List lock_event) : Prop := ∀ e ∈ es, e = lock_event.write

/-- Events of _add_device_opp: none if the table exists or an allocation fails,
else list_add_rcu of the device_list_opp into dev_list and list_add_rcu of the
table into dev_opp_list. -/
def _add_device_opp_events (m : kalloc) (r : Registry) (dev : device) : List lock_event :=
  match _find_device_opp r dev with
  | .ptr _ _ => []
  | .err _ =>
    if !m.dev_opp then []
    else if !m.list_dev then []
    else [.write, .write]

/-- Events of _allocate_opp. -/
def _allocate_opp_events (m : kalloc) (r : Registry) (dev : device) : List lock_event :=
  if !m.opp then [] else _add_device_opp_events m r dev

/-- Events of _opp_add: list_add_rcu unless the new OPP is a duplicate. -/
def _opp_add_events (new_opp : dev_pm_opp) : List dev_pm_opp → List lock_event
  | [] => [.write]
  | opp :: rest =>
    if new_opp.rate > opp.rate then _opp_add_events new_opp rest
    else if new_opp.rate < opp.rate then [.write]
    else []

/-- Events of _remove_device_opp: when the table is freed, list_del of its
device_list_opp and list_del_rcu of the table. -/
def _remove_device_opp_events (r : Registry) (i : Nat) : List lock_event :=
  match r[i]? with
  | none => []
  | some dev_opp =>
    if !dev_opp.opp_list.isEmpty then []
    else if dev_opp.supported_hw.isSome then []
    else if dev_opp.prop_name.isSome then []
    else if !IS_ERR dev_opp.regulator then []
    else [.write, .write]

/-- Events of _opp_remove: list_del_rcu of the node, then _remove_device_opp. -/
def _opp_remove_events (r : Registry) (i : Nat) (pos : Option Nat) : List lock_event :=
  match r[i]? with
  | none => []
  | some dev_opp =>
    match pos with
    | none => .write :: _remove_device_opp_events r i
    | some p =>
      .write :: _remove_device_opp_events
        (r.set i { dev_opp with opp_list := dev_opp.opp_list.eraseIdx p }) i

/-- Events of a call of _opp_add_v1; none when the call faults. -/
def _opp_add_v1_events (m : kalloc) (r : Registry) (dev : device) (freq u_volt : Nat)
    (dynamic : Bool) : Option (List lock_event) :=
  match _allocate_opp m r dev with
  | none => none
  | some (none, _) => some ([.lock] ++ _allocate_opp_events m r dev ++ [.unlock])
  | some (some (i, dev_opp), r1) =>
    let new_opp := opp_v1 dev_opp freq u_volt dynamic
    let res := _opp_add new_opp dev_opp.opp_list
    some ([.lock] ++
      (_allocate_opp_events m r dev ++ _opp_add_events new_opp dev_opp.opp_list ++
        (if res.1 ≠ 0 then _opp_remove_events r1 i none else [])) ++ [.unlock])

/-- Events of a call of _opp_add_static_v2; none when the call faults.  After a
successful _opp_add the suspend OPP and the maximum clock latency of the table
are written if they change. -/
def _opp_add_static_v2_events (m : kalloc) (r : Registry) (dev : device) (np : device_node) :
    Option (List lock_event) :=
  match _allocate_opp m r dev with
  | none => none
  | some (none, _) => some ([.lock] ++ _allocate_opp_events m r dev ++ [.unlock])
  | some (some (i, dev_opp), r1) =>
    let inner : List lock_event :=
      match np.opp_hz with
      | .ok rate =>
        if !_opp_is_supported dev_opp np then _opp_remove_events r1 i none
        else
          let parsed := opp_parse_supplies (opp_v2 np rate) np dev_opp
          if parsed.1 ≠ 0 then _opp_remove_events r1 i none
          else
            let new_opp := parsed.2
            let res := _opp_add new_opp dev_opp.opp_list
            if res.1 ≠ 0 then
              _opp_add_events new_opp dev_opp.opp_list ++ _opp_remove_events r1 i none
            else
              _opp_add_events new_opp dev_opp.opp_list ++
                (if np.opp_suspend && !dev_opp.suspend_opp.isSome then [.write] else []) ++
                (if new_opp.clock_latency_ns > dev_opp.clock_latency_ns_max then [.write]
                  else [])
      | _ => _opp_remove_events r1 i none
    some ([.lock] ++ (_allocate_opp_events m r dev ++ inner) ++ [.unlock])

/-- Events of a call of dev_pm_opp_remove. -/
def dev_pm_opp_remove_events (r : Registry) (dev : device) (freq : Nat) : List lock_event :=
  [.lock] ++
    (match _find_device_opp r dev with
      | .err _ => []
      | .ptr i dev_opp =>
        match find_rate freq dev_opp.opp_list 0 with
        | none => []
        | some (p, _) => _opp_remove_events r i (some p)) ++ [.unlock]

/-- Events of a call of _opp_set_availability: nothing when the kmalloc done
before the mutex is taken fails, else the locked section with list_replace_rcu
if the availability changes. -/
def _opp_set_availability_events (m : kalloc) (r : Registry) (dev : device) (freq : Nat)
    (availability_req : Bool) : List lock_event :=
  if !m.opp then []
  else
    [.lock] ++
      (match _find_device_opp r dev with
        | .err _ => []
        | .ptr _ dev_opp =>
          match find_rate freq dev_opp.opp_list 0 with
          | none => []
          | some (_, opp) => if opp.available == availability_req then [] else [.write]) ++
      [.unlock]

/-- Events of the loop of dev_pm_opp_of_remove_table, along remove_static_loop. -/
def remove_static_loop_events (i : Nat) : List dev_pm_opp → Nat → Registry → List lock_event
  | [], _, _ => []
  | opp :: rest, pos, r =>
    if !opp.dynamic then
      _opp_remove_events r i (some pos) ++
        remove_static_loop_events i rest pos (_opp_remove r i (some pos))
    else remove_static_loop_events i rest (pos + 1) r

/-- Events of a call of dev_pm_opp_of_remove_table. -/
def dev_pm_opp_of_remove_table_events (r : Registry) (dev : device) : List lock_event :=
  [.lock] ++
    (match _find_device_opp r dev with
      | .err _ => []
      | .ptr i dev_opp =>
        if dev_opp.dev_list.length = 1 then remove_static_loop_events i dev_opp.opp_list 0 r
        else [.write]) ++ [.unlock]

/-- Sets the hierarchy of versions of the table of the device: the return value,
the registry afterwards and the lock events; none when _add_device_opp faults.
versions has count elements; kmemdup_ok tells whether kmemdup succeeds (its
result, NULL on failure, is stored in the table before it is tested). -/
def dev_pm_opp_set_supported_hw (m : kalloc) (kmemdup_ok : Bool) (r : Registry) (dev : device)
    (versions : List Nat) : Option (Int × Registry × List lock_event) :=
  match _add_device_opp m r dev with
  | none => none
  | some (none, r1) =>
    some (-ENOMEM, r1, [.lock] ++ _add_device_opp_events m r dev ++ [.unlock])
  | some (some (i, dev_opp), r1) =>
    if dev_opp.supported_hw.isSome then
      some (-EBUSY, _remove_device_opp r1 i,
        [.lock] ++ (_add_device_opp_events m r dev ++ _remove_device_opp_events r1 i) ++
          [.unlock])
    else if !kmemdup_ok then
      some (-ENOMEM, _remove_device_opp r1 i,
        [.lock] ++
          (_add_device_opp_events m r dev ++ [.write] ++ _remove_device_opp_events r1 i) ++
          [.unlock])
    else
      some (0, r1.set i { dev_opp with supported_hw := some versions },
        [.lock] ++ (_add_device_opp_events m r dev ++ [.write, .write]) ++ [.unlock])

/-- Releases the hierarchy of versions of the table of the device: the registry
afterwards and the lock events. -/
def dev_pm_opp_put_supported_hw (r : Registry) (dev : device) : Registry × List lock_event :=
  match _find_device_opp r dev with
  | .err _ => (r, [.lock, .unlock])
  | .ptr i dev_opp =>
    if !dev_opp.supported_hw.isSome then (r, [.lock, .unlock])
    else
      let r1 := r.set i { dev_opp with supported_hw := none }
      (_remove_device_opp r1 i,
        [.lock] ++ ([.write, .write] ++ _remove_device_opp_events r1 i) ++ [.unlock])

/-- Sets the property name extension of the table of the device: the return
value, the registry afterwards and the lock events; none when _add_device_opp
faults.  kstrdup_ok tells whether kstrdup succeeds (its result, NULL on failure,
is stored in the table before it is tested). -/
def dev_pm_opp_set_prop_name (m : kalloc) (kstrdup_ok : Bool) (r : Registry) (dev : device)
    (name : String) : Option (Int × Registry × List lock_event) :=
  match _add_device_opp m r dev with
  | none => none
  | some (none, r1) =>
    some (-ENOMEM, r1, [.lock] ++ _add_device_opp_events m r dev ++ [.unlock])
  | some (some (i, dev_opp), r1) =>
    if dev_opp.prop_name.isSome then
      some (-EBUSY, _remove_device_opp r1 i,
        [.lock] ++ (_add_device_opp_events m r dev ++ _remove_device_opp_events r1 i) ++
          [.unlock])
    else if !kstrdup_ok then
      some (-ENOMEM, _remove_device_opp r1 i,
        [.lock] ++
          (_add_device_opp_events m r dev ++ [.write] ++ _remove_device_opp_events r1 i) ++
          [.unlock])
    else
      some (0, r1.set i { dev_opp with prop_name := some name },
        [.lock] ++ (_add_device_opp_events m r dev ++ [.write]) ++ [.unlock])

/-- Releases the property name extension of the table of the device: the
registry afterwards and the lock events. -/
def dev_pm_opp_put_prop_name (r : Registry) (dev : device) : Registry × List lock_event :=
  match _find_device_opp r dev with
  | .err _ => (r, [.lock, .unlock])
  | .ptr i dev_opp =>
    if !dev_opp.prop_name.isSome then (r, [.lock, .unlock])
    else
      let r1 := r.set i { dev_opp with prop_name := none }
      (_remove_device_opp r1 i,
        [.lock] ++ ([.write] ++ _remove_device_opp_events r1 i) ++ [.unlock])

/-- Sets the regulator of the table of the device: the return value, the
registry afterwards and the lock events; none when _add_device_opp faults.  reg
is the pointer that regulator_get_optional returns. -/
def dev_pm_opp_set_regulator (m : kalloc) (reg : Nat) (r : Registry) (dev : device) :
    Option (Int × Registry × List lock_event) :=
  match _add_device_opp m r dev with
  | none => none
  | some (none, r1) =>
    some (-ENOMEM, r1, [.lock] ++ _add_device_opp_events m r dev ++ [.unlock])
  | some (some (i, dev_opp), r1) =>
    if !dev_opp.opp_list.isEmpty then
      some (-EBUSY, _remove_device_opp r1 i,
        [.lock] ++ (_add_device_opp_events m r dev ++ _remove_device_opp_events r1 i) ++
          [.unlock])
    else if !IS_ERR dev_opp.regulator then
      some (-EBUSY, _remove_device_opp r1 i,
        [.lock] ++ (_add_device_opp_events m r dev ++ _remove_device_opp_events r1 i) ++
          [.unlock])
    else if IS_ERR reg then
      some (to_long reg, _remove_device_opp r1 i,
        [.lock] ++ (_add_device_opp_events m r dev ++ _remove_device_opp_events r1 i) ++
          [.unlock])
    else
      some (0, r1.set i { dev_opp with regulator := reg },
        [.lock] ++ (_add_device_opp_events m r dev ++ [.write]) ++ [.unlock])

/-- Releases the regulator of the table of the device: the registry afterwards
and the lock events. -/
def dev_pm_opp_put_regulator (r : Registry) (dev : device) : Registry × List lock_event :=
  match _find_device_opp r dev with
  | .err _ => (r, [.lock, .unlock])
  | .ptr i dev_opp =>
    if IS_ERR dev_opp.regulator then (r, [.lock, .unlock])
    else
      let r1 := r.set i { dev_opp with regulator := ERR_PTR (- ENXIO) }
      (_remove_device_opp r1 i,
        [.lock] ++ ([.write] ++ _remove_device_opp_events r1 i) ++ [.unlock])

/-- The walk of _managed_opp over dev_opp_list, from position k. -/
def managed_opp_from (np : Nat) : List device_opp → Nat → Option (Nat × device_opp)
  | [], _ => none
  | dev_opp :: rest, k =>
    if dev_opp.np = np then (if dev_opp.shared_opp then some (k, dev_opp) else none)
    else managed_opp_from np rest (k + 1)

/-- The table that already manages the OPPs of the node np, if it is shared. -/
def _managed_opp (r : Registry) (np : Nat) : Option (Nat × device_opp) :=
  managed_opp_from np r 0

/-- Adds the device at the head of the device list of a table; NULL (none) when
the device_list_opp cannot be allocated. -/
def _add_list_dev (m : kalloc) (dev : device) (dev_opp : device_opp) : Option device_opp :=
  if !m.list_dev then none
  else some { dev_opp with dev_list := dev.addr :: dev_opp.dev_list }

/-- Modelled from the spec: struct device_node is declared in linux/of.h, not
among the sources.  The operating-points-v2 node of a device is given by its
address, its opp-shared property and its available children in order. -/
structure opp_table_node where
  addr : Nat
  opp_shared : Bool
  children : List device_node

/-- The loop of _of_add_opp_table_v2 over the children still to add, the k-th
child with the allocation outcomes ms k: the return value of the first call of
_opp_add_static_v2 that fails (0 if none does), the registry and the lock
events so far; none when a call faults. -/
def add_static_loop (ms : Nat → kalloc) (dev : device) :
    List device_node → Nat → Registry → List lock_event →
      Option (Int × Registry × List lock_event)
  | [], _, r, es => some (0, r, es)
  | np :: rest, k, r, es =>
    match _opp_add_static_v2 (ms k) r dev np, _opp_add_static_v2_events (ms k) r dev np with
    | some (ret, r1), some es1 =>
      if ret ≠ 0 then some (ret, r1, es ++ es1)
      else add_static_loop ms dev rest (k + 1) r1 (es ++ es1)
    | _, _ => none

/-- Initialises the OPP table of a device from its operating-points-v2 node:
the return value, the registry afterwards and the lock events; none when a
call of _opp_add_static_v2 faults.  m gives the outcome of the allocation in
_add_list_dev, ms k those of the call for the k-th child. -/
def _of_add_opp_table_v2 (m : kalloc) (ms : Nat → kalloc) (r : Registry) (dev : device)
    (opp_np : opp_table_node) : Option (Int × Registry × List lock_event) :=
  match _managed_opp r opp_np.addr with
  | some (i, dev_opp) =>
    match _add_list_dev m dev dev_opp with
    | none => some (-ENOMEM, r, [.lock, .unlock])
    | some dev_opp1 => some (0, r.set i dev_opp1, [.lock, .write, .unlock])
  | none =>
    match add_static_loop ms dev opp_np.children 0 r [.lock, .unlock] with
    | none => none
    | some (ret, r1, es) =>
      if ret ≠ 0 then
        some (ret, dev_pm_opp_of_remove_table r1 dev,
          es ++ dev_pm_opp_of_remove_table_events r1 dev)
      else if opp_np.children.isEmpty then some (-ENOENT, r1, es)
      else
        match _find_device_opp r1 dev with
        | .err e =>
          some (e, dev_pm_opp_of_remove_table r1 dev,
            es ++ [.lock, .unlock] ++ dev_pm_opp_of_remove_table_events r1 dev)
        | .ptr i dev_opp =>
          some (0, r1.set i { dev_opp with np := opp_np.addr, shared_opp := opp_np.opp_shared },
            es ++ [.lock, .write, .write, .unlock])

/-- A call of one of the writers of core.c, with its arguments and the outcomes
of the allocations and lookups it depends on. -/
inductive writer_call where
  | opp_add_v1 (m : kalloc) (dev : device) (freq u_volt : Nat) (dynamic : Bool)
  | opp_add_static_v2 (m : kalloc) (dev : device) (np : device_node)
  | opp_remove (dev : device) (freq : Nat)
  | opp_set_availability (m : kalloc) (dev : device) (freq : Nat) (availability_req : Bool)
  | set_supported_hw (m : kalloc) (kmemdup_ok : Bool) (dev : device) (versions : List Nat)
  | put_supported_hw (dev : device)
  | set_prop_name (m : kalloc) (kstrdup_ok : Bool) (dev : device) (name : String)
  | put_prop_name (dev : device)
  | set_regulator (m : kalloc) (reg : Nat) (dev : device)
  | put_regulator (dev : device)
  | of_remove_table (dev : device)
  | of_add_opp_table_v2 (m : kalloc) (ms : Nat → kalloc) (dev : device)
      (opp_np : opp_table_node)

/-- The device the writer is called for. -/
def writer_call.dev : writer_call → device
  | .opp_add_v1 _ dev _ _ _ => dev
  | .opp_add_static_v2 _ dev _ => dev
  | .opp_remove dev _ => dev
  | .opp_set_availability _ dev _ _ => dev
  | .set_supported_hw _ _ dev _ => dev
  | .put_supported_hw dev => dev
  | .set_prop_name _ _ dev _ => dev
  | .put_prop_name dev => dev
  | .set_regulator _ _ dev => dev
  | .put_regulator dev => dev
  | .of_remove_table dev => dev
  | .of_add_opp_table_v2 _ _ dev _ => dev

/-- The lock events of a call of a writer on a registry; none when the call
faults and so does not return. -/
def writer_events (r : Registry) : writer_call → Option (List lock_event)
  | .opp_add_v1 m dev freq u_volt dynamic => _opp_add_v1_events m r dev freq u_volt dynamic
  | .opp_add_static_v2 m dev np => _opp_add_static_v2_events m r dev np
  | .opp_remove dev freq => some (dev_pm_opp_remove_events r dev freq)
  | .opp_set_availability m dev freq availability_req =>
    some (_opp_set_availability_events m r dev freq availability_req)
  | .set_supported_hw m kmemdup_ok dev versions =>
    (dev_pm_opp_set_supported_hw m kmemdup_ok r dev versions).map (fun res => res.2.2)
  | .put_supported_hw dev => some (dev_pm_opp_put_supported_hw r dev).2
  | .set_prop_name m kstrdup_ok dev name =>
    (dev_pm_opp_set_prop_name m kstrdup_ok r dev name).map (fun res => res.2.2)
  | .put_prop_name dev => some (dev_pm_opp_put_prop_name r dev).2
  | .set_regulator m reg dev =>
    (dev_pm_opp_set_regulator m reg r dev).map (fun res => res.2.2)
  | .put_regulator dev => some (dev_pm_opp_put_regulator r dev).2
  | .of_remove_table dev => some (dev_pm_opp_of_remove_table_events r dev)
  | .of_add_opp_table_v2 m ms dev opp_np =>
    (_of_add_opp_table_v2 m ms r dev opp_np).map (fun res => res.2.2)

/-- The registry after a call of a writer; none when the call faults. -/
def writer_registry (r : Registry) : writer_call → Option Registry
  | .opp_add_v1 m dev freq u_volt dynamic =>
    (_opp_add_v1 m r dev freq u_volt dynamic).map (fun res => res.2)
  | .opp_add_static_v2 m dev np => (_opp_add_static_v2 m r dev np).map (fun res => res.2)
  | .opp_remove dev freq => some (dev_pm_opp_remove r dev freq)
  | .opp_set_availability m dev freq availability_req =>
    some (_opp_set_availability m r dev freq availability_req).2
  | .set_supported_hw m kmemdup_ok dev versions =>
    (dev_pm_opp_set_supported_hw m kmemdup_ok r dev versions).map (fun res => res.2.1)
  | .put_supported_hw dev => some (dev_pm_opp_put_supported_hw r dev).1
  | .set_prop_name m kstrdup_ok dev name =>
    (dev_pm_opp_set_prop_name m kstrdup_ok r dev name).map (fun res => res.2.1)
  | .put_prop_name dev => some (dev_pm_opp_put_prop_name r dev).1
  | .set_regulator m reg dev =>
    (dev_pm_opp_set_regulator m reg r dev).map (fun res => res.2.1)
  | .put_regulator dev => some (dev_pm_opp_put_regulator r dev).1
  | .of_remove_table dev => some (dev_pm_opp_of_remove_table r dev)
  | .of_add_opp_table_v2 m ms dev opp_np =>
    (_of_add_opp_table_v2 m ms r dev opp_np).map (fun res => res.2.1)

/-- An operating-points-v2 node whose one child is sample_np. -/
def sample_opp_np : opp_table_node := { addr := 12288, opp_shared := true, children := [sample_np] }

end OPP

namespace SMP

/-! ## CPU bring-up and frequency capacity (arch/arm64/kernel/smp.c)

__cpu_up runs on the CPU that asks for another one to be started.  What the
other CPU does meanwhile is an input: the value its cpu_boot operation returns
and whether it is online once the wait has ended.  The per-CPU variables of
the frequency capacity are functions of the CPU number. -/

/-- Modelled from the spec: EIO of asm-generic/errno-base.h (header not among
the sources), input/output error. -/
def EIO : Int := 5

/-- Modelled from the spec: EOPNOTSUPP of asm-generic/errno.h (header not among
the sources), operation not supported. -/
def EOPNOTSUPP : Int := 95

/-- Modelled from the spec: THREAD_START_SP of asm/thread_info.h (header not
among the sources), the offset of the initial stack pointer in the stack page:
THREAD_SIZE - 16 with a THREAD_SIZE of 16384. -/
def THREAD_START_SP : Nat := 16384 - 16

/-- Modelled from the spec: struct cpu_operations is declared in asm/cpu_ops.h,
not among the sources.  Of the operations of a CPU, __cpu_up uses cpu_boot: a
function pointer (none when NULL) that is called with the CPU number and
returns an int. -/
structure cpu_operations where
  cpu_boot : Option (Nat → Int)

/-- Modelled from the spec: struct secondary_data is declared in asm/smp.h, not
among the sources; its one field is the stack pointer handed to the secondary
CPU, an address with 0 for NULL. -/
structure secondary_data where
  stack : Nat
deriving DecidableEq

/-- Boots a secondary CPU through its cpu_boot operation.  cpu_ops is the array
of operation pointers (none for a NULL entry); the result is none when the
entry of the CPU is NULL, which the function dereferences. -/
def boot_secondary (cpu_ops : Nat → Option cpu_operations) (cpu : Nat) : Option Int :=
  match cpu_ops cpu with
  | none => none
  | some ops =>
    match ops.cpu_boot with
    | some cpu_boot => some (cpu_boot cpu)
    | none => some (-EOPNOTSUPP)

/-- Brings a CPU up: the return value and secondary_data on return.  idle_stack
is task_stack_page(idle); online_after_wait is what cpu_online(cpu) reads once
wait_for_completion_timeout has returned, by completion or after the 1000 ms.
The stack pointer is published before the boot and cleared after it. -/
def __cpu_up (cpu_ops : Nat → Option cpu_operations) (online_after_wait : Bool)
    (sd : secondary_data) (cpu : Nat) (idle_stack : Nat) : Option (Int × secondary_data) :=
  let sd1 : secondary_data := { sd with stack := idle_stack + THREAD_START_SP }
  match boot_secondary cpu_ops cpu with
  | none => none
  | some ret =>
    let ret1 : Int :=
      if ret = 0 then
        if !online_after_wait then - EIO else ret
      else ret
    some (ret1, { sd1 with stack := 0 })

/-- Modelled from the spec: SCHED_CAPACITY_SHIFT of linux/sched.h (header not
among the sources). -/
def SCHED_CAPACITY_SHIFT : Nat := 10

/-- Modelled from the spec: CPUFREQ_PRECHANGE of linux/cpufreq.h (header not
among the sources), the transition event sent before the change. -/
def CPUFREQ_PRECHANGE : Nat := 0

/-- Modelled from the spec: CPUFREQ_POSTCHANGE of linux/cpufreq.h (header not
among the sources), the transition event sent after the change. -/
def CPUFREQ_POSTCHANGE : Nat := 1

/-- Modelled from the spec: CPUFREQ_CONST_LOOPS of linux/cpufreq.h (header not
among the sources), the flag 1 << 1. -/
def CPUFREQ_CONST_LOOPS : Nat := 1 <<< 1

/-- Modelled from the spec: NOTIFY_OK of linux/notifier.h (header not among the
sources). -/
def NOTIFY_OK : Int := 1

/-- Modelled from the spec: struct cpufreq_freqs is declared in
linux/cpufreq.h, not among the sources; the fields are the CPU, the old and the
new frequency and the driver flags. -/
structure cpufreq_freqs where
  cpu : Nat
  old : Nat
  new : Nat
  flags : Nat
deriving DecidableEq

/-- The per-CPU variables cpu_max_freq and cpu_freq_capacity, by CPU number;
each holds the 64 bits of an atomic_long_t. -/
structure freq_state where
  cpu_max_freq : Nat → Nat
  cpu_freq_capacity : Nat → Nat

/-- Division of unsigned longs; none for a zero divisor. -/
def ulong_div (a b : Nat) : Option Nat := if b = 0 then none else some (a / b)

/-- Sets the frequency capacity of a CPU from its current and its maximum
frequency.  The shift is done in unsigned long; the result is none if the
division were to be done with a zero divisor. -/
def scale_freq_capacity (s : freq_state) (cpu curr max : Nat) : Option freq_state :=
  if max = 0 then some s
  else
    match ulong_div ((curr <<< SCHED_CAPACITY_SHIFT) % OPP.ULONG_SIZE) max with
    | none => none
    | some capacity =>
      some { s with
        cpu_freq_capacity := fun c => if c = cpu then capacity else s.cpu_freq_capacity c }

/-- The transition notifier: the return value and the per-CPU variables
afterwards. -/
def cpufreq_callback (s : freq_state) (val : Nat) (freq : cpufreq_freqs) :
    Option (Int × freq_state) :=
  let cpu := freq.cpu
  let max := s.cpu_max_freq cpu
  if freq.flags &&& CPUFREQ_CONST_LOOPS ≠ 0 then some (NOTIFY_OK, s)
  else if val = CPUFREQ_PRECHANGE then
    match scale_freq_capacity s cpu freq.new max with
    | none => none
    | some s1 => some (NOTIFY_OK, s1)
  else some (NOTIFY_OK, s)

/-- Operations of a CPU whose cpu_boot returns the given value. -/
def sample_ops (ret : Int) : cpu_operations := { cpu_boot := some (fun _ => ret) }

/-- Per-CPU variables with a maximum frequency of 2000 on every CPU and no
capacity set. -/
def sample_freq_state : freq_state :=
  { cpu_max_freq := fun _ => 2000, cpu_freq_capacity := fun _ => 0 }

end SMP

namespace OPP

/-! ## Theorems -/


/-! ### Lookup and the order invariant -/

theorem find_table_ptr (dev : Nat) (r : Registry) (k j : Nat) (t : device_opp)
    (h : find_table dev r k = .ptr j t) :
    k ≤ j ∧ r[j - k]? = some t ∧ (_find_list_dev dev t).isSome = true := by
  induction r generalizing k with
  | nil => simp [find_table] at h
  | cons a as ih =>
    simp only [find_table] at h
    split at h
    · rename_i hs
      injection h with h1 h2
      subst h1; subst h2
      simp [hs]
    · obtain ⟨h1, h2, h3⟩ := ih (k + 1) h
      refine ⟨by omega, ?_, h3⟩
      have : j - k = (j - (k + 1)) + 1 := by omega
      rw [this]
      simpa using h2

theorem find_device_opp_ptr (r : Registry) (dev : device) (i : Nat) (t : device_opp)
    (h : _find_device_opp r dev = .ptr i t) :
    r[i]? = some t ∧ IS_ERR_OR_NULL dev.addr = false ∧ (_find_list_dev dev.addr t).isSome = true := by
  unfold _find_device_opp at h
  split at h
  · simp at h
  · rename_i hn
    obtain ⟨_, h2, h3⟩ := find_table_ptr _ _ _ _ _ h
    exact ⟨by simpa using h2, by simpa using hn, h3⟩

theorem registry_sorted_set (r : Registry) (i : Nat) (t : device_opp)
    (hr : registry_sorted r) (ht : strictly_increasing t.opp_list) :
    registry_sorted (r.set i t) := by
  intro x hx
  rcases List.mem_or_eq_of_mem_set hx with h | h
  · exact hr x h
  · subst h; exact ht

theorem registry_sorted_eraseIdx (r : Registry) (i : Nat) (hr : registry_sorted r) :
    registry_sorted (r.eraseIdx i) :=
  fun x hx => hr x ((List.eraseIdx_sublist r i).subset hx)

theorem registry_sorted_get (r : Registry) (i : Nat) (t : device_opp)
    (hr : registry_sorted r) (h : r[i]? = some t) : strictly_increasing t.opp_list :=
  hr t (List.getElem?_mem h)

theorem remove_device_opp_sorted (r : Registry) (i : Nat) (hr : registry_sorted r) :
    registry_sorted (_remove_device_opp r i) := by
  unfold _remove_device_opp
  split
  · exact hr
  · split_ifs <;> first | exact hr | exact registry_sorted_eraseIdx r i hr

theorem opp_remove_sorted (r : Registry) (i : Nat) (pos : Option Nat)
    (hr : registry_sorted r) : registry_sorted (_opp_remove r i pos) := by
  unfold _opp_remove
  split
  · exact hr
  · rename_i t ht
    split
    · exact remove_device_opp_sorted r i hr
    · apply remove_device_opp_sorted
      apply registry_sorted_set _ _ _ hr
      exact List.Pairwise.sublist (List.eraseIdx_sublist _ _) (registry_sorted_get r i t hr ht)

theorem opp_add_mem (n : dev_pm_opp) (l : List dev_pm_opp) :
    ∀ x ∈ (_opp_add n l).2, x = n ∨ x ∈ l := by
  induction l with
  | nil => intro x hx; simp [_opp_add] at hx; exact Or.inl hx
  | cons a as ih =>
    intro x hx
    simp only [_opp_add] at hx
    split_ifs at hx with h1 h2
    · simp only [List.mem_cons] at hx
      rcases hx with h | h
      · right; simp [h]
      · rcases ih x h with h | h
        · exact Or.inl h
        · right; simp [h]
    · simp only [List.mem_cons] at hx
      rcases hx with h | h | h
      · exact Or.inl h
      · right; simp [h]
      · right; simp [h]
    · exact Or.inr hx
    · exact Or.inr hx

theorem opp_add_sorted (n : dev_pm_opp) (l : List dev_pm_opp)
    (hl : strictly_increasing l) : strictly_increasing (_opp_add n l).2 := by
  unfold strictly_increasing at *
  induction l with
  | nil => simp [_opp_add]
  | cons a as ih =>
    simp only [_opp_add]
    have ha := List.pairwise_cons.mp hl
    split_ifs with h1 h2
    · refine List.pairwise_cons.mpr ⟨?_, ih ha.2⟩
      intro x hx
      rcases opp_add_mem n as x hx with h | h
      · subst h; exact h1
      · exact ha.1 x h
    · refine List.pairwise_cons.mpr ⟨?_, hl⟩
      intro x hx
      rcases List.mem_cons.mp hx with h | h
      · subst h; exact h2
      · exact lt_trans h2 (ha.1 x h)
    · exact hl
    · exact hl

theorem add_device_opp_sorted (m : kalloc) (r : Registry) (dev : device)
    (res : Option (Nat × device_opp)) (r1 : Registry)
    (hr : registry_sorted r) (h : _add_device_opp m r dev = some (res, r1)) :
    registry_sorted r1 ∧ ∀ i t, res = some (i, t) → r1[i]? = some t := by
  unfold _add_device_opp at h
  split at h
  · rename_i i t hf
    simp only [Option.some.injEq, Prod.mk.injEq] at h
    obtain ⟨h1, h2⟩ := h
    subst h2
    refine ⟨hr, ?_⟩
    intro i' t' he
    rw [← h1] at he
    simp only [Option.some.injEq, Prod.mk.injEq] at he
    rw [← he.1, ← he.2]
    exact (find_device_opp_ptr r dev i t hf).1
  · split_ifs at h
    · simp only [Option.some.injEq, Prod.mk.injEq] at h
      obtain ⟨h1, h2⟩ := h
      subst h2; subst h1
      exact ⟨hr, by simp⟩
    · simp only [Option.some.injEq, Prod.mk.injEq] at h
      obtain ⟨h1, h2⟩ := h
      subst h2; subst h1
      exact ⟨hr, by simp⟩
    · simp only [Option.some.injEq, Prod.mk.injEq] at h
      obtain ⟨h1, h2⟩ := h
      subst h2; subst h1
      constructor
      · intro x hx
        rcases List.mem_cons.mp hx with hx | hx
        · subst hx; simp [strictly_increasing]
        · exact hr x hx
      · intro i t he
        simp only [Option.some.injEq, Prod.mk.injEq] at he
        rw [← he.1, ← he.2]
        simp

theorem allocate_opp_sorted (m : kalloc) (r : Registry) (dev : device)
    (res : Option (Nat × device_opp)) (r1 : Registry)
    (hr : registry_sorted r) (h : _allocate_opp m r dev = some (res, r1)) :
    registry_sorted r1 ∧ ∀ i t, res = some (i, t) → r1[i]? = some t := by
  unfold _allocate_opp at h
  split_ifs at h
  · simp only [Option.some.injEq, Prod.mk.injEq] at h
    obtain ⟨h1, h2⟩ := h
    subst h2; subst h1
    exact ⟨hr, by simp⟩
  · exact add_device_opp_sorted m r dev res r1 hr h

theorem opp_add_v1_sorted (m : kalloc) (r : Registry) (dev : device) (freq u_volt : Nat)
    (dynamic : Bool) (ret : Int) (r' : Registry) (hr : registry_sorted r)
    (h : _opp_add_v1 m r dev freq u_volt dynamic = some (ret, r')) : registry_sorted r' := by
  unfold _opp_add_v1 at h
  split at h
  · simp at h
  · rename_i r1 ha
    simp only [Option.some.injEq, Prod.mk.injEq] at h
    rw [← h.2]
    exact (allocate_opp_sorted m r dev _ r1 hr ha).1
  · rename_i i t r1 ha
    obtain ⟨hs, hg⟩ := allocate_opp_sorted m r dev _ r1 hr ha
    have ht := registry_sorted_get r1 i t hs (hg i t rfl)
    simp only at h
    split_ifs at h
    · simp only [Option.some.injEq, Prod.mk.injEq] at h
      rw [← h.2]
      exact opp_remove_sorted r1 i none hs
    · simp only [Option.some.injEq, Prod.mk.injEq] at h
      rw [← h.2]
      exact registry_sorted_set r1 i _ hs (opp_add_sorted _ _ ht)

theorem opp_add_static_v2_sorted (m : kalloc) (r : Registry) (dev : device)
    (np : device_node) (ret : Int) (r' : Registry) (hr : registry_sorted r)
    (h : _opp_add_static_v2 m r dev np = some (ret, r')) : registry_sorted r' := by
  unfold _opp_add_static_v2 at h
  split at h
  · simp at h
  · rename_i r1 ha
    simp only [Option.some.injEq, Prod.mk.injEq] at h
    rw [← h.2]
    exact (allocate_opp_sorted m r dev _ r1 hr ha).1
  · rename_i i t r1 ha
    obtain ⟨hs, hg⟩ := allocate_opp_sorted m r dev _ r1 hr ha
    have ht := registry_sorted_get r1 i t hs (hg i t rfl)
    split at h
    · simp only at h
      split_ifs at h
      all_goals simp only [Option.some.injEq, Prod.mk.injEq] at h
      all_goals rw [← h.2]
      all_goals first
        | exact opp_remove_sorted r1 i none hs
        | exact registry_sorted_set r1 i _ hs (opp_add_sorted _ _ ht)
    · simp only [Option.some.injEq, Prod.mk.injEq] at h
      rw [← h.2]
      exact opp_remove_sorted r1 i none hs

theorem remove_sorted (r : Registry) (dev : device) (freq : Nat) (hr : registry_sorted r) :
    registry_sorted (dev_pm_opp_remove r dev freq) := by
  unfold dev_pm_opp_remove
  split
  · exact hr
  · split
    · exact hr
    · exact opp_remove_sorted _ _ _ hr

theorem find_rate_spec (freq : Nat) (l : List dev_pm_opp) (k p : Nat) (o : dev_pm_opp)
    (h : find_rate freq l k = some (p, o)) :
    k ≤ p ∧ l[p - k]? = some o ∧ o.rate = freq ∧
      ∀ j, j < p - k → ∀ x, l[j]? = some x → x.rate ≠ freq := by
  induction l generalizing k with
  | nil => simp [find_rate] at h
  | cons a as ih =>
    simp only [find_rate] at h
    split_ifs at h with ha
    · simp only [Option.some.injEq, Prod.mk.injEq] at h
      obtain ⟨h1, h2⟩ := h
      subst h1; subst h2
      simp [ha]
    · obtain ⟨h1, h2, h3, h4⟩ := ih (k + 1) h
      have e : p - k = (p - (k + 1)) + 1 := by omega
      refine ⟨by omega, ?_, h3, ?_⟩
      · rw [e]; simpa using h2
      · intro j hj x hx
        cases j with
        | zero => simp at hx; subst hx; exact ha
        | succ j => exact h4 j (by omega) x (by simpa using hx)

theorem set_availability_sorted (m : kalloc) (r : Registry) (dev : device) (freq : Nat)
    (req : Bool) (hr : registry_sorted r) :
    registry_sorted (_opp_set_availability m r dev freq req).2 := by
  unfold _opp_set_availability
  split_ifs
  · exact hr
  · split
    · exact hr
    · rename_i i t hf
      have ht := registry_sorted_get r i t hr (find_device_opp_ptr r dev i t hf).1
      split
      · exact hr
      · rename_i p o hp
        split_ifs
        · exact hr
        · apply registry_sorted_set _ _ _ hr
          obtain ⟨_, h2, h3, _⟩ := find_rate_spec freq _ 0 p o hp
          simp only [Nat.sub_zero] at h2
          unfold strictly_increasing at *
          rw [List.pairwise_iff_getElem] at *
          intro a b ha hb hab
          simp only [List.length_set] at ha hb
          have := ht a b ha hb hab
          simp only [List.getElem_set]
          obtain ⟨hp', hpo⟩ := List.getElem?_eq_some_iff.mp h2
          split_ifs with e1 e2 e2
          · omega
          · subst e1; simpa [hpo] using this
          · subst e2; simpa [hpo] using this
          · exact this

theorem remove_static_loop_sorted (i : Nat) (l : List dev_pm_opp) (pos : Nat) (r : Registry)
    (hr : registry_sorted r) : registry_sorted (remove_static_loop i l pos r) := by
  induction l generalizing pos r with
  | nil => exact hr
  | cons a as ih =>
    simp only [remove_static_loop]
    split_ifs
    · exact ih _ _ (opp_remove_sorted _ _ _ hr)
    · exact ih _ _ hr

theorem of_remove_table_sorted (r : Registry) (dev : device) (hr : registry_sorted r) :
    registry_sorted (dev_pm_opp_of_remove_table r dev) := by
  unfold dev_pm_opp_of_remove_table
  split
  · exact hr
  · rename_i i t hf
    split_ifs
    · exact remove_static_loop_sorted _ _ _ _ hr
    · apply registry_sorted_set _ _ _ hr
      have ht := registry_sorted_get r i t hr (find_device_opp_ptr r dev i t hf).1
      unfold _remove_list_dev
      split <;> exact ht

theorem reachable_sorted (r : Registry) (h : Reachable r) : registry_sorted r := by
  induction h with
  | empty => intro t ht; simp at ht
  | add m r dev freq u_volt ret r' _ hs ih => exact opp_add_v1_sorted m r dev freq u_volt true ret r' ih hs
  | add_static_v2 m r dev np ret r' _ hs ih => exact opp_add_static_v2_sorted m r dev np ret r' ih hs
  | remove r dev freq _ ih => exact remove_sorted r dev freq ih
  | enable m r dev freq _ ih => exact set_availability_sorted m r dev freq true ih
  | disable m r dev freq _ ih => exact set_availability_sorted m r dev freq false ih
  | of_remove_table r dev _ ih => exact of_remove_table_sorted r dev ih

theorem strictly_increasing_nodup (l : List dev_pm_opp) (h : strictly_increasing l) :
    (l.map (fun o => o.rate)).Nodup := by
  unfold strictly_increasing at h
  rw [List.Nodup, List.pairwise_map]
  exact h.imp (fun hab => Nat.ne_of_lt hab)

/-! ### Lookup errors and the search loops -/

theorem find_list_dev_from_none (dev : Nat) (l : List Nat) (k : Nat) :
    find_list_dev_from dev l k = none ↔ dev ∉ l := by
  induction l generalizing k with
  | nil => simp [find_list_dev_from]
  | cons a as ih =>
    simp only [find_list_dev_from, List.mem_cons, not_or]
    split_ifs with h
    · simp [h]
    · rw [ih]
      constructor
      · intro h'; exact ⟨fun e => h e.symm, h'⟩
      · intro h'; exact h'.2

theorem find_list_dev_isSome (dev : Nat) (t : device_opp) :
    (_find_list_dev dev t).isSome = true ↔ dev ∈ t.dev_list := by
  unfold _find_list_dev
  rw [Option.isSome_iff_ne_none, ne_eq, find_list_dev_from_none]
  simp

theorem find_table_err (dev : Nat) (r : Registry) (k : Nat) (e : Int)
    (h : find_table dev r k = .err e) : e = -ENODEV ∧ ∀ t ∈ r, dev ∉ t.dev_list := by
  induction r generalizing k with
  | nil =>
    simp only [find_table] at h
    injection h with h
    exact ⟨h.symm, by simp⟩
  | cons a as ih =>
    simp only [find_table] at h
    split_ifs at h with hs
    obtain ⟨h1, h2⟩ := ih (k + 1) h
    refine ⟨h1, ?_⟩
    intro t ht
    rcases List.mem_cons.mp ht with ht | ht
    · subst ht
      intro hm
      exact hs ((find_list_dev_isSome dev t).mpr hm)
    · exact h2 t ht

theorem find_table_none (dev : Nat) (r : Registry) (k : Nat)
    (h : ∀ t ∈ r, dev ∉ t.dev_list) : find_table dev r k = .err (-ENODEV) := by
  induction r generalizing k with
  | nil => rfl
  | cons a as ih =>
    simp only [find_table]
    have ha : ¬ (_find_list_dev dev a).isSome = true := by
      rw [find_list_dev_isSome]; exact h a (by simp)
    rw [if_neg ha]
    exact ih (k + 1) (fun t ht => h t (by simp [ht]))

theorem find_table_set (dev : Nat) (r : Registry) (k j : Nat) (t t' : device_opp)
    (h : find_table dev r k = .ptr (k + j) t) (hd : t'.dev_list = t.dev_list) :
    find_table dev (r.set j t') k = .ptr (k + j) t' := by
  induction r generalizing k j with
  | nil => simp [find_table] at h
  | cons a as ih =>
    simp only [find_table] at h
    split_ifs at h with hs
    · injection h with h1 h2
      have hj : j = 0 := by omega
      subst hj; subst h2
      simp only [List.set_cons_zero, find_table]
      have : (_find_list_dev dev t').isSome = true := by
        rw [find_list_dev_isSome, hd, ← find_list_dev_isSome]; exact hs
      rw [if_pos this]; rfl
    · have hk := (find_table_ptr dev as (k + 1) (k + j) t h).1
      obtain ⟨j', rfl⟩ : ∃ j', j = j' + 1 := ⟨j - 1, by omega⟩
      simp only [List.set_cons_succ, find_table]
      rw [if_neg hs]
      have e : k + (j' + 1) = k + 1 + j' := by omega
      rw [e] at h ⊢
      exact ih (k + 1) j' h

theorem find_device_opp_set (r : Registry) (dev : device) (i : Nat) (t t' : device_opp)
    (h : _find_device_opp r dev = .ptr i t) (hd : t'.dev_list = t.dev_list) :
    _find_device_opp (r.set i t') dev = .ptr i t' := by
  unfold _find_device_opp at *
  split_ifs at h with hn
  rw [if_neg hn]
  have := find_table_set dev.addr r 0 i t t' (by simpa using h) hd
  simpa using this

theorem find_device_opp_err (r : Registry) (dev : device) (e : Int)
    (h : _find_device_opp r dev = .err e) :
    (IS_ERR_OR_NULL dev.addr = true ∧ e = -EINVAL) ∨
    (IS_ERR_OR_NULL dev.addr = false ∧ e = -ENODEV ∧ ∀ t ∈ r, dev.addr ∉ t.dev_list) := by
  unfold _find_device_opp at h
  split_ifs at h with hn
  · injection h with h
    exact Or.inl ⟨hn, h.symm⟩
  · obtain ⟨h1, h2⟩ := find_table_err _ _ _ _ h
    exact Or.inr ⟨by simpa using hn, h1, h2⟩

theorem ceil_loop_found (l : List dev_pm_opp) (opp : opp_ptr) (f : Nat)
    (hs : sorted_by_rate l) (h : ∃ o ∈ l, o.available = true ∧ f ≤ o.rate) :
    ∃ o, ceil_loop l opp f = (.node o, o.rate) ∧ o ∈ l ∧ o.available = true ∧ f ≤ o.rate ∧
      ∀ o' ∈ l, o'.available = true → f ≤ o'.rate → o.rate ≤ o'.rate := by
  induction l with
  | nil => simp at h
  | cons a as ih =>
    have hp := List.pairwise_cons.mp hs
    simp only [ceil_loop]
    split_ifs with ha
    · simp only [Bool.and_eq_true, decide_eq_true_eq] at ha
      refine ⟨a, rfl, by simp, ha.1, ha.2, ?_⟩
      intro o' ho' _ _
      rcases List.mem_cons.mp ho' with e | e
      · subst e; exact le_refl _
      · exact hp.1 o' e
    · simp only [Bool.and_eq_true, decide_eq_true_eq, not_and] at ha
      obtain ⟨o, ho, hav, hf⟩ := h
      have hoas : o ∈ as := by
        rcases List.mem_cons.mp ho with e | e
        · subst e; exact absurd hf (ha hav)
        · exact e
      obtain ⟨x, hx1, hx2, hx3, hx4, hx5⟩ := ih hp.2 ⟨o, hoas, hav, hf⟩
      refine ⟨x, hx1, by simp [hx2], hx3, hx4, ?_⟩
      intro o' ho' hav' hf'
      rcases List.mem_cons.mp ho' with e | e
      · subst e; exact absurd hf' (ha hav')
      · exact hx5 o' e hav' hf'

theorem ceil_loop_none (l : List dev_pm_opp) (opp : opp_ptr) (f : Nat)
    (h : ∀ o ∈ l, o.available = true → o.rate < f) : ceil_loop l opp f = (opp, f) := by
  induction l with
  | nil => rfl
  | cons a as ih =>
    simp only [ceil_loop]
    have ha : ¬ (a.available && decide (a.rate ≥ f)) = true := by
      simp only [Bool.and_eq_true, decide_eq_true_eq, not_and]
      intro hav
      have := h a (by simp) hav
      omega
    rw [if_neg ha]
    exact ih (fun o ho => h o (by simp [ho]))

theorem floor_loop_none (l : List dev_pm_opp) (opp : opp_ptr) (f : Nat)
    (h : ∀ o ∈ l, o.available = true → f < o.rate) : floor_loop f l opp = opp := by
  induction l with
  | nil => rfl
  | cons a as ih =>
    simp only [floor_loop]
    split_ifs with hav hr
    · rfl
    · exact absurd (h a (by simp) hav) hr
    · exact ih (fun o ho => h o (by simp [ho]))

theorem floor_loop_found (l : List dev_pm_opp) (opp : opp_ptr) (f : Nat)
    (hs : sorted_by_rate l) (h : ∃ o ∈ l, o.available = true ∧ o.rate ≤ f) :
    ∃ o, floor_loop f l opp = .node o ∧ o ∈ l ∧ o.available = true ∧ o.rate ≤ f ∧
      ∀ o' ∈ l, o'.available = true → o'.rate ≤ f → o'.rate ≤ o.rate := by
  induction l generalizing opp with
  | nil => simp at h
  | cons a as ih =>
    have hp := List.pairwise_cons.mp hs
    obtain ⟨o, ho, hav, hf⟩ := h
    simp only [floor_loop]
    split_ifs with ha hr
    · exfalso
      rcases List.mem_cons.mp ho with e | e
      · subst e; omega
      · have := hp.1 o e; omega
    · by_cases hex : ∃ x ∈ as, x.available = true ∧ x.rate ≤ f
      · obtain ⟨x, hx1, hx2, hx3, hx4, hx5⟩ := ih (.node a) hp.2 hex
        refine ⟨x, hx1, by simp [hx2], hx3, hx4, ?_⟩
        intro o' ho' hav' hf'
        rcases List.mem_cons.mp ho' with e | e
        · subst e; exact hp.1 x hx2
        · exact hx5 o' e hav' hf'
      · have hnone : ∀ x ∈ as, x.available = true → f < x.rate := by
          intro x hx hxa
          by_contra hc
          exact hex ⟨x, hx, hxa, by omega⟩
        rw [floor_loop_none as _ f hnone]
        refine ⟨a, rfl, by simp, ha, by omega, ?_⟩
        intro o' ho' hav' hf'
        rcases List.mem_cons.mp ho' with e | e
        · subst e; exact le_refl _
        · have := hnone o' e hav'; omega
    · have hoas : o ∈ as := by
        rcases List.mem_cons.mp ho with e | e
        · subst e; exact absurd hav ha
        · exact e
      obtain ⟨x, hx1, hx2, hx3, hx4, hx5⟩ := ih opp hp.2 ⟨o, hoas, hav, hf⟩
      refine ⟨x, hx1, by simp [hx2], hx3, hx4, ?_⟩
      intro o' ho' hav' hf'
      rcases List.mem_cons.mp ho' with e | e
      · subst e; exact absurd hav' ha
      · exact hx5 o' e hav' hf'

theorem floor_loop_filter (l : List dev_pm_opp) (opp : opp_ptr) (f : Nat) :
    floor_loop f (l.filter (fun o => o.available)) opp = floor_loop f l opp := by
  induction l generalizing opp with
  | nil => rfl
  | cons a as ih =>
    by_cases ha : a.available = true
    · simp only [List.filter_cons, ha, if_true, floor_loop]
      split_ifs
      · rfl
      · exact ih _
    · simp only [List.filter_cons, ha, floor_loop]
      simpa using ih opp

/-! ### The claims about the order invariant and the finders -/

/-- C1: in every registry state reachable from the empty registry through
dev_pm_opp_add, _opp_add_static_v2, dev_pm_opp_remove, dev_pm_opp_enable,
dev_pm_opp_disable and dev_pm_opp_of_remove_table, the OPP list of every table
is in strictly increasing order of rate, so no two OPPs of a table have the
same rate. -/
theorem C1_reachable_opp_lists_strictly_increasing (r : Registry) (h : Reachable r) :
    ∀ t ∈ r, strictly_increasing t.opp_list ∧ (t.opp_list.map (fun o => o.rate)).Nodup :=
  fun t ht =>
    ⟨reachable_sorted r h t ht, strictly_increasing_nodup _ (reachable_sorted r h t ht)⟩

/-- C1 at the registry reached from the empty one by adding the rates 1500, 500
and 1000 in that order: the table lists them as 500, 1000, 1500. -/
theorem C1_witness :
    Reachable [sample_table
      [sample_opp 500 900 true, sample_opp 1000 1000 true, sample_opp 1500 1100 true]] ∧
    ∀ t ∈ [sample_table
        [sample_opp 500 900 true, sample_opp 1000 1000 true, sample_opp 1500 1100 true]],
      strictly_increasing t.opp_list ∧ (t.opp_list.map (fun o => o.rate)).Nodup :=
  have h1 : Reachable [sample_table [sample_opp 1500 1100 true]] :=
    Reachable.add alloc_ok [] sample_dev 1500 1100 0 _ Reachable.empty (by decide)
  have h2 : Reachable [sample_table [sample_opp 500 900 true, sample_opp 1500 1100 true]] :=
    Reachable.add alloc_ok _ sample_dev 500 900 0 _ h1 (by decide)
  have h3 : Reachable [sample_table
      [sample_opp 500 900 true, sample_opp 1000 1000 true, sample_opp 1500 1100 true]] :=
    Reachable.add alloc_ok _ sample_dev 1000 1000 0 _ h2 (by decide)
  ⟨h3, C1_reachable_opp_lists_strictly_increasing _ h3⟩

/-- C2: for a registered device whose OPP list is sorted by increasing rate and
a start frequency f, dev_pm_opp_find_freq_ceil returns the available OPP with
the smallest rate at or above f and writes that rate to *freq; when no
available OPP has a rate at or above f it returns -ERANGE and leaves *freq
as it was. -/
theorem C2_find_freq_ceil (r : Registry) (dev : device) (i : Nat) (t : device_opp) (f : Nat)
    (hdev : _find_device_opp r dev = .ptr i t) (hs : sorted_by_rate t.opp_list) :
    ((∃ o ∈ t.opp_list, o.available = true ∧ f ≤ o.rate) →
      ∃ o, dev_pm_opp_find_freq_ceil r dev (some f) = (.node o, some o.rate) ∧
        o ∈ t.opp_list ∧ o.available = true ∧ f ≤ o.rate ∧
        ∀ o' ∈ t.opp_list, o'.available = true → f ≤ o'.rate → o.rate ≤ o'.rate) ∧
    ((∀ o ∈ t.opp_list, o.available = true → o.rate < f) →
      dev_pm_opp_find_freq_ceil r dev (some f) = (.err (-ERANGE), some f)) := by
  have hn := (find_device_opp_ptr r dev i t hdev).2.1
  have h0 : ¬ dev.addr = 0 := by
    intro e
    simp [IS_ERR_OR_NULL, e] at hn
  constructor
  · intro hex
    obtain ⟨o, h1, h2⟩ := ceil_loop_found t.opp_list (.err (-ERANGE)) f hs hex
    refine ⟨o, ?_, h2⟩
    simp only [dev_pm_opp_find_freq_ceil, if_neg h0, hdev, h1]
  · intro hnone
    simp only [dev_pm_opp_find_freq_ceil, if_neg h0, hdev,
      ceil_loop_none t.opp_list (.err (-ERANGE)) f hnone]

/-- C2 on the three sample OPPs: from 600 the ceil is the OPP at 1000. -/
theorem C2_witness :
    _find_device_opp [sample_table sample_opps] sample_dev = .ptr 0 (sample_table sample_opps) ∧
    sorted_by_rate (sample_table sample_opps).opp_list ∧
    ∃ o, dev_pm_opp_find_freq_ceil [sample_table sample_opps] sample_dev (some 600)
        = (.node o, some o.rate) ∧
      o ∈ (sample_table sample_opps).opp_list ∧ o.available = true ∧ 600 ≤ o.rate ∧
      ∀ o' ∈ (sample_table sample_opps).opp_list, o'.available = true → 600 ≤ o'.rate →
        o.rate ≤ o'.rate :=
  ⟨by decide, by decide,
    (C2_find_freq_ceil [sample_table sample_opps] sample_dev 0 (sample_table sample_opps) 600
      (by decide) (by decide)).1 ⟨sample_opp 1000 1000 true, by decide, by decide, by decide⟩⟩

/-- C3: for a registered device whose OPP list is sorted by increasing rate and
a start frequency f, dev_pm_opp_find_freq_floor returns the available OPP with
the largest rate at or below f and writes that rate to *freq; when no available
OPP has a rate at or below f it returns -ERANGE and leaves *freq as it was; the
result is the one obtained on the list without its unavailable OPPs. -/
theorem C3_find_freq_floor (r : Registry) (dev : device) (i : Nat) (t : device_opp) (f : Nat)
    (hdev : _find_device_opp r dev = .ptr i t) (hs : sorted_by_rate t.opp_list) :
    ((∃ o ∈ t.opp_list, o.available = true ∧ o.rate ≤ f) →
      ∃ o, dev_pm_opp_find_freq_floor r dev (some f) = (.node o, some o.rate) ∧
        o ∈ t.opp_list ∧ o.available = true ∧ o.rate ≤ f ∧
        ∀ o' ∈ t.opp_list, o'.available = true → o'.rate ≤ f → o'.rate ≤ o.rate) ∧
    ((∀ o ∈ t.opp_list, o.available = true → f < o.rate) →
      dev_pm_opp_find_freq_floor r dev (some f) = (.err (-ERANGE), some f)) ∧
    dev_pm_opp_find_freq_floor
        (r.set i { t with opp_list := t.opp_list.filter (fun o => o.available) }) dev (some f)
      = dev_pm_opp_find_freq_floor r dev (some f) := by
  have hn := (find_device_opp_ptr r dev i t hdev).2.1
  have h0 : ¬ dev.addr = 0 := by
    intro e
    simp [IS_ERR_OR_NULL, e] at hn
  refine ⟨?_, ?_, ?_⟩
  · intro hex
    obtain ⟨o, h1, h2⟩ := floor_loop_found t.opp_list (.err (-ERANGE)) f hs hex
    refine ⟨o, ?_, h2⟩
    simp only [dev_pm_opp_find_freq_floor, if_neg h0, hdev, h1]
  · intro hnone
    simp only [dev_pm_opp_find_freq_floor, if_neg h0, hdev,
      floor_loop_none t.opp_list (.err (-ERANGE)) f hnone]
  · have hset := find_device_opp_set r dev i t
      { t with opp_list := t.opp_list.filter (fun o => o.available) } hdev rfl
    simp only [dev_pm_opp_find_freq_floor, if_neg h0, hdev, hset, floor_loop_filter]

/-- C3 on the three sample OPPs: from 1200 the floor is the OPP at 1000. -/
theorem C3_witness :
    _find_device_opp [sample_table sample_opps] sample_dev = .ptr 0 (sample_table sample_opps) ∧
    sorted_by_rate (sample_table sample_opps).opp_list ∧
    ∃ o, dev_pm_opp_find_freq_floor [sample_table sample_opps] sample_dev (some 1200)
        = (.node o, some o.rate) ∧
      o ∈ (sample_table sample_opps).opp_list ∧ o.available = true ∧ o.rate ≤ 1200 ∧
      ∀ o' ∈ (sample_table sample_opps).opp_list, o'.available = true → o'.rate ≤ 1200 →
        o'.rate ≤ o.rate :=
  ⟨by decide, by decide,
    (C3_find_freq_floor [sample_table sample_opps] sample_dev 0 (sample_table sample_opps) 1200
      (by decide) (by decide)).1 ⟨sample_opp 1000 1000 true, by decide, by decide, by decide⟩⟩

theorem exact_loop_spec (f : Nat) (a : Bool) (l : List dev_pm_opp) (e : Int) :
    ((∃ o ∈ l, o.rate = f ∧ o.available = a) →
      ∃ o, exact_loop f a l (.err e) = .node o ∧ o ∈ l ∧ o.rate = f ∧ o.available = a) ∧
    ((∀ o ∈ l, o.rate = f → o.available ≠ a) → exact_loop f a l (.err e) = .err e) := by
  induction l with
  | nil => simp [exact_loop]
  | cons x xs ih =>
    simp only [exact_loop]
    split_ifs with hx
    · simp only [Bool.and_eq_true, beq_iff_eq] at hx
      constructor
      · intro _
        exact ⟨x, rfl, by simp, hx.2, hx.1⟩
      · intro hall
        exact absurd hx.1 (hall x (by simp) hx.2)
    · simp only [Bool.and_eq_true, beq_iff_eq, not_and] at hx
      constructor
      · rintro ⟨o, ho, hf, ha⟩
        have : o ∈ xs := by
          rcases List.mem_cons.mp ho with e | e
          · subst e; exact absurd hf (hx ha)
          · exact e
        obtain ⟨y, hy1, hy2, hy3⟩ := ih.1 ⟨o, this, hf, ha⟩
        exact ⟨y, hy1, by simp [hy2], hy3⟩
      · intro hall
        exact ih.2 (fun o ho => hall o (by simp [ho]))

/-- C4: for a registered device, dev_pm_opp_find_freq_exact(dev, f, a) returns
an OPP of the table with rate f and availability a when there is one and
-ERANGE when there is none, and an OPP it returns always has availability a;
for a device without a table it returns -ENODEV and for a NULL or error
device pointer -EINVAL. -/
theorem C4_find_freq_exact (r : Registry) (dev : device) (f : Nat) (a : Bool) :
    (∀ i t, _find_device_opp r dev = .ptr i t →
      ((∃ o ∈ t.opp_list, o.rate = f ∧ o.available = a) →
        ∃ o, dev_pm_opp_find_freq_exact r dev f a = .node o ∧
          o ∈ t.opp_list ∧ o.rate = f ∧ o.available = a) ∧
      ((∀ o ∈ t.opp_list, o.rate = f → o.available ≠ a) →
        dev_pm_opp_find_freq_exact r dev f a = .err (-ERANGE)) ∧
      (∀ o, dev_pm_opp_find_freq_exact r dev f a = .node o → o.available = a)) ∧
    (IS_ERR_OR_NULL dev.addr = false → (∀ t ∈ r, dev.addr ∉ t.dev_list) →
      dev_pm_opp_find_freq_exact r dev f a = .err (-ENODEV)) ∧
    (IS_ERR_OR_NULL dev.addr = true →
      dev_pm_opp_find_freq_exact r dev f a = .err (-EINVAL)) := by
  refine ⟨?_, ?_, ?_⟩
  · intro i t hdev
    have hspec := exact_loop_spec f a t.opp_list (-ERANGE)
    refine ⟨?_, ?_, ?_⟩
    · intro hex
      simpa only [dev_pm_opp_find_freq_exact, hdev] using hspec.1 hex
    · intro hall
      simpa only [dev_pm_opp_find_freq_exact, hdev] using hspec.2 hall
    · intro o ho
      simp only [dev_pm_opp_find_freq_exact, hdev] at ho
      by_cases hex : ∃ o ∈ t.opp_list, o.rate = f ∧ o.available = a
      · obtain ⟨y, hy1, _, _, hy4⟩ := hspec.1 hex
        rw [hy1] at ho
        injection ho with ho
        rw [← ho]; exact hy4
      · have hall : ∀ o ∈ t.opp_list, o.rate = f → o.available ≠ a :=
          fun o ho hf ha => hex ⟨o, ho, hf, ha⟩
        rw [hspec.2 hall] at ho
        cases ho
  · intro hn hall
    simp only [dev_pm_opp_find_freq_exact, _find_device_opp, hn, Bool.false_eq_true, if_false,
      find_table_none dev.addr r 0 hall]
  · intro hn
    simp only [dev_pm_opp_find_freq_exact, _find_device_opp, hn, if_true]

/-- C4 on the three sample OPPs: the unavailable OPP at 500 is found with
a = false, and the NULL device gives -EINVAL. -/
theorem C4_witness :
    (∃ o, dev_pm_opp_find_freq_exact [sample_table sample_opps] sample_dev 500 false = .node o ∧
      o ∈ (sample_table sample_opps).opp_list ∧ o.rate = 500 ∧ o.available = false) ∧
    dev_pm_opp_find_freq_exact [sample_table sample_opps] sample_dev 500 true
      = .err (-ERANGE) ∧
    dev_pm_opp_find_freq_exact [sample_table sample_opps] { addr := 8192, of_node := none }
      500 false = .err (-ENODEV) ∧
    dev_pm_opp_find_freq_exact [sample_table sample_opps] { addr := 0, of_node := none }
      500 false = .err (-EINVAL) :=
  ⟨((C4_find_freq_exact [sample_table sample_opps] sample_dev 500 false).1 0
      (sample_table sample_opps) (by decide)).1
      ⟨sample_opp 500 900 false, by decide, by decide, by decide⟩,
    ((C4_find_freq_exact [sample_table sample_opps] sample_dev 500 true).1 0
      (sample_table sample_opps) (by decide)).2.1 (by decide),
    (C4_find_freq_exact [sample_table sample_opps] { addr := 8192, of_node := none }
      500 false).2.1 (by decide) (by decide),
    (C4_find_freq_exact [sample_table sample_opps] { addr := 0, of_node := none }
      500 false).2.2 (by decide)⟩

theorem count_available_spec (l : List dev_pm_opp) (c : Int) :
    count_available l c = c + ((l.filter (fun o => o.available)).length : Int) := by
  induction l generalizing c with
  | nil => simp [count_available]
  | cons x xs ih =>
    simp only [count_available, List.filter_cons]
    split_ifs with hx
    · rw [ih]; simp only [List.length_cons]; push_cast; ring
    · rw [ih]

/-- C7: dev_pm_opp_get_opp_count returns the number of OPPs of the table whose
available flag is set (0 when there is none), -ENODEV for a device without a
table and -EINVAL for a NULL or error device pointer. -/
theorem C7_get_opp_count (r : Registry) (dev : device) :
    (∀ i t, _find_device_opp r dev = .ptr i t →
      dev_pm_opp_get_opp_count r dev
        = ((t.opp_list.filter (fun o => o.available)).length : Int)) ∧
    (IS_ERR_OR_NULL dev.addr = false → (∀ t ∈ r, dev.addr ∉ t.dev_list) →
      dev_pm_opp_get_opp_count r dev = -ENODEV) ∧
    (IS_ERR_OR_NULL dev.addr = true → dev_pm_opp_get_opp_count r dev = -EINVAL) := by
  refine ⟨?_, ?_, ?_⟩
  · intro i t hdev
    simp only [dev_pm_opp_get_opp_count, hdev, count_available_spec, zero_add]
  · intro hn hall
    simp only [dev_pm_opp_get_opp_count, _find_device_opp, hn, Bool.false_eq_true, if_false,
      find_table_none dev.addr r 0 hall]
  · intro hn
    simp only [dev_pm_opp_get_opp_count, _find_device_opp, hn, if_true]

/-- C7 on the three sample OPPs, two of which are available. -/
theorem C7_witness :
    dev_pm_opp_get_opp_count [sample_table sample_opps] sample_dev = 2 ∧
    dev_pm_opp_get_opp_count [sample_table sample_opps] { addr := 8192, of_node := none }
      = -ENODEV ∧
    dev_pm_opp_get_opp_count [sample_table sample_opps] { addr := 0, of_node := none }
      = -EINVAL :=
  ⟨((C7_get_opp_count [sample_table sample_opps] sample_dev).1 0 (sample_table sample_opps)
      (by decide)).trans (by decide),
    (C7_get_opp_count [sample_table sample_opps] { addr := 8192, of_node := none }).2.1
      (by decide) (by decide),
    (C7_get_opp_count [sample_table sample_opps] { addr := 0, of_node := none }).2.2
      (by decide)⟩

/-! ### Adding an OPP -/

theorem set_self (r : Registry) (i : Nat) (t : device_opp) (h : r[i]? = some t) :
    r.set i t = r := by
  apply List.ext_getElem?
  intro j
  rw [List.getElem?_set]
  split_ifs with h1 h2
  · subst h1; exact h.symm
  · subst h1
    rw [List.getElem?_eq_none (by omega)]
  · rfl

theorem remove_device_opp_nonempty (r : Registry) (i : Nat) (t : device_opp)
    (h : r[i]? = some t) (hne : t.opp_list ≠ []) : _remove_device_opp r i = r := by
  unfold _remove_device_opp
  rw [h]
  have : (!t.opp_list.isEmpty) = true := by
    cases hl : t.opp_list with
    | nil => exact absurd hl hne
    | cons a as => rfl
  simp only [this, if_true]

theorem opp_add_duplicate (n o : dev_pm_opp) (l : List dev_pm_opp)
    (hs : strictly_increasing l) (ho : o ∈ l) (hf : o.rate = n.rate) :
    _opp_add n l = (if o.available && n.u_volt == o.u_volt then 0 else -EEXIST, l) := by
  unfold strictly_increasing at hs
  induction l with
  | nil => simp at ho
  | cons a as ih =>
    have hp := List.pairwise_cons.mp hs
    simp only [_opp_add]
    rcases List.mem_cons.mp ho with e | e
    · subst e
      have h1 : ¬ n.rate > o.rate := by omega
      have h2 : ¬ n.rate < o.rate := by omega
      rw [if_neg h1, if_neg h2]
    · have hlt := hp.1 o e
      have h1 : n.rate > a.rate := by omega
      rw [if_pos h1, ih hp.2 e]

theorem add_device_opp_find (m : kalloc) (r : Registry) (dev : device) (i : Nat)
    (t : device_opp) (r1 : Registry)
    (h : _add_device_opp m r dev = some (some (i, t), r1)) :
    _find_device_opp r1 dev = .ptr i t := by
  unfold _add_device_opp at h
  split at h
  · rename_i i' t' hf
    simp only [Option.some.injEq, Prod.mk.injEq] at h
    obtain ⟨⟨h1, h2⟩, h3⟩ := h
    subst h1; subst h2; subst h3
    exact hf
  · split_ifs at h with h1 h2 h3
    · simp at h
    · simp at h
    · simp only [Option.some.injEq, Prod.mk.injEq] at h
      obtain ⟨⟨h4, h5⟩, h6⟩ := h
      subst h4; subst h5; subst h6
      unfold _find_device_opp
      rw [if_neg h3]
      simp [find_table, _find_list_dev, find_list_dev_from]

theorem allocate_opp_find (m : kalloc) (r : Registry) (dev : device) (i : Nat)
    (t : device_opp) (r1 : Registry)
    (h : _allocate_opp m r dev = some (some (i, t), r1)) :
    _find_device_opp r1 dev = .ptr i t := by
  unfold _allocate_opp at h
  split_ifs at h
  · simp at h
  · exact add_device_opp_find m r dev i t r1 h

theorem allocate_opp_registered (m : kalloc) (r : Registry) (dev : device) (i : Nat)
    (t : device_opp) (h : _find_device_opp r dev = .ptr i t) :
    _allocate_opp m r dev = if m.opp = false then some (none, r) else some (some (i, t), r) := by
  unfold _allocate_opp _add_device_opp
  rw [h]
  cases m.opp <;> simp

theorem opp_add_then_exact (n : dev_pm_opp) (l : List dev_pm_opp) (init : opp_ptr)
    (hn : n.available = true) (h : (_opp_add n l).1 = 0) :
    ∃ o, exact_loop n.rate true (_opp_add n l).2 init = .node o ∧
      o.rate = n.rate ∧ o.available = true ∧ o.u_volt = n.u_volt := by
  induction l with
  | nil => exact ⟨n, by simp [_opp_add, exact_loop, hn], rfl, hn, rfl⟩
  | cons a as ih =>
    simp only [_opp_add] at h ⊢
    split_ifs at h ⊢ with h1 h2 h3
    · obtain ⟨o, ho⟩ := ih h
      refine ⟨o, ?_, ho.2⟩
      simp only [exact_loop]
      have : ¬ (a.available == true && a.rate == n.rate) = true := by
        simp only [Bool.and_eq_true, beq_iff_eq, not_and]
        intro _; omega
      rw [if_neg this]
      exact ho.1
    · exact ⟨n, by simp [exact_loop, hn], rfl, hn, rfl⟩
    · simp only [Bool.and_eq_true, beq_iff_eq] at h3
      have hr : a.rate = n.rate := by omega
      exact ⟨a, by simp [exact_loop, h3.1, hr], hr, h3.1, h3.2.symm⟩
    · simp [EEXIST] at h

/-- C5 as stated fails when the allocation of the new node fails: the table
holds an available OPP at 1000 Hz with 1000 uV, and adding the same pair
returns -ENOMEM instead of 0. -/
theorem C5_counterexample_allocation_failure :
    _find_device_opp [sample_table sample_opps] sample_dev
      = .ptr 0 (sample_table sample_opps) ∧
    sample_opp 1000 1000 true ∈ (sample_table sample_opps).opp_list ∧
    dev_pm_opp_add alloc_opp_fails [sample_table sample_opps] sample_dev 1000 1000
      = some (-ENOMEM, [sample_table sample_opps]) ∧
    dev_pm_opp_add alloc_opp_fails [sample_table sample_opps] sample_dev 1000 1000
      ≠ some (0, [sample_table sample_opps]) := by
  decide

/-- C5 (amended): on a table with a strictly increasing OPP list that holds an
OPP o with rate f, dev_pm_opp_add(dev, f, v) returns -ENOMEM when the new node
cannot be allocated; otherwise it returns 0 if o is available and its u_volt is
v, and -EEXIST if not; in each case the registry is left as it was. -/
theorem C5_add_existing_rate (m : kalloc) (r : Registry) (dev : device) (i : Nat)
    (t : device_opp) (f v : Nat) (o : dev_pm_opp)
    (hdev : _find_device_opp r dev = .ptr i t) (hs : strictly_increasing t.opp_list)
    (ho : o ∈ t.opp_list) (hf : o.rate = f) :
    (m.opp = false → dev_pm_opp_add m r dev f v = some (-ENOMEM, r)) ∧
    (m.opp = true → o.available = true → o.u_volt = v →
      dev_pm_opp_add m r dev f v = some (0, r)) ∧
    (m.opp = true → ¬ (o.available = true ∧ o.u_volt = v) →
      dev_pm_opp_add m r dev f v = some (-EEXIST, r)) := by
  have hget := (find_device_opp_ptr r dev i t hdev).1
  have hne : t.opp_list ≠ [] := List.ne_nil_of_mem ho
  have hdup := opp_add_duplicate (opp_v1 t f v true) o t.opp_list hs ho
    (by simp [opp_v1, hf])
  have hu : (opp_v1 t f v true).u_volt = v := rfl
  rw [hu] at hdup
  refine ⟨?_, ?_, ?_⟩
  · intro hm
    simp [dev_pm_opp_add, _opp_add_v1, allocate_opp_registered m r dev i t hdev, hm]
  · intro hm ha hv
    have hc : (o.available && v == o.u_volt) = true := by simp [ha, hv]
    simp only [hc, if_true] at hdup
    simp only [dev_pm_opp_add, _opp_add_v1, allocate_opp_registered m r dev i t hdev, hm,
      Bool.true_eq_false, if_false, hdup, ne_eq, not_true_eq_false]
    rw [show ({ t with opp_list := t.opp_list } : device_opp) = t from rfl, set_self r i t hget]
  · intro hm hna
    have hc : ¬ (o.available && v == o.u_volt) = true := by
      simp only [Bool.and_eq_true, beq_iff_eq, not_and]
      intro ha hv
      exact hna ⟨ha, hv.symm⟩
    rw [if_neg hc] at hdup
    have hE : (-EEXIST : Int) ≠ 0 := by decide
    simp only [dev_pm_opp_add, _opp_add_v1, allocate_opp_registered m r dev i t hdev, hm,
      Bool.true_eq_false, if_false, hdup, ne_eq, hE, not_false_eq_true, if_true, _opp_remove,
      hget, remove_device_opp_nonempty r i t hget hne]

/-- C5 (amended) on the three sample OPPs: the same pair gives 0, another
voltage gives -EEXIST, a failed allocation gives -ENOMEM. -/
theorem C5_witness :
    dev_pm_opp_add alloc_opp_fails [sample_table sample_opps] sample_dev 1000 1000
      = some (-ENOMEM, [sample_table sample_opps]) ∧
    dev_pm_opp_add alloc_ok [sample_table sample_opps] sample_dev 1000 1000
      = some (0, [sample_table sample_opps]) ∧
    dev_pm_opp_add alloc_ok [sample_table sample_opps] sample_dev 1000 1001
      = some (-EEXIST, [sample_table sample_opps]) :=
  ⟨(C5_add_existing_rate alloc_opp_fails [sample_table sample_opps] sample_dev 0
      (sample_table sample_opps) 1000 1000 (sample_opp 1000 1000 true)
      (by decide) (by decide) (by decide) (by decide)).1 (by decide),
    (C5_add_existing_rate alloc_ok [sample_table sample_opps] sample_dev 0
      (sample_table sample_opps) 1000 1000 (sample_opp 1000 1000 true)
      (by decide) (by decide) (by decide) (by decide)).2.1 (by decide) (by decide) (by decide),
    (C5_add_existing_rate alloc_ok [sample_table sample_opps] sample_dev 0
      (sample_table sample_opps) 1000 1001 (sample_opp 1000 1000 true)
      (by decide) (by decide) (by decide) (by decide)).2.2 (by decide) (by decide)⟩

/-- C6: if dev_pm_opp_add(dev, f, v) returns 0 then
dev_pm_opp_find_freq_exact(dev, f, true) on the resulting registry returns an
OPP for which dev_pm_opp_get_freq gives f and dev_pm_opp_get_voltage gives v. -/
theorem C6_add_then_find_exact (m : kalloc) (r : Registry) (dev : device) (f v : Nat)
    (r' : Registry) (h : dev_pm_opp_add m r dev f v = some (0, r')) :
    ∃ o, dev_pm_opp_find_freq_exact r' dev f true = .node o ∧
      dev_pm_opp_get_freq (.node o) = f ∧ dev_pm_opp_get_voltage (.node o) = v := by
  unfold dev_pm_opp_add _opp_add_v1 at h
  split at h
  · simp at h
  · simp [ENOMEM] at h
  · rename_i i t r1 ha
    have hfind := allocate_opp_find m r dev i t r1 ha
    simp only at h
    split_ifs at h with hret
    · simp only [Option.some.injEq, Prod.mk.injEq] at h
      exact absurd h.1 hret
    · simp only [Option.some.injEq, Prod.mk.injEq, true_and] at h
      have hret0 : (_opp_add (opp_v1 t f v true) t.opp_list).1 = 0 := by
        simpa using hret
      obtain ⟨o, ho1, ho2, ho3, ho4⟩ :=
        opp_add_then_exact (opp_v1 t f v true) t.opp_list (.err (-ERANGE)) rfl hret0
      have hset := find_device_opp_set r1 dev i t
        { t with opp_list := (_opp_add (opp_v1 t f v true) t.opp_list).2 } hfind rfl
      rw [← h]
      refine ⟨o, ?_, ?_, ?_⟩
      · simp only [dev_pm_opp_find_freq_exact, hset]
        exact ho1
      · simp only [dev_pm_opp_get_freq, ho3, Bool.not_true, Bool.false_eq_true, if_false]
        exact ho2
      · simp only [dev_pm_opp_get_voltage, ho3, Bool.not_true, Bool.false_eq_true, if_false]
        exact ho4

/-- C6 for the first OPP of a new device: 1000 Hz at 900 uV. -/
theorem C6_witness :
    dev_pm_opp_add alloc_ok [] sample_dev 1000 900
      = some (0, [sample_table [sample_opp 1000 900 true]]) ∧
    ∃ o, dev_pm_opp_find_freq_exact [sample_table [sample_opp 1000 900 true]] sample_dev
        1000 true = .node o ∧
      dev_pm_opp_get_freq (.node o) = 1000 ∧ dev_pm_opp_get_voltage (.node o) = 900 :=
  ⟨by decide, C6_add_then_find_exact alloc_ok [] sample_dev 1000 900 _ (by decide)⟩

/-! ### Changing availability and removing -/

theorem find_rate_some_of_mem (f : Nat) (l : List dev_pm_opp) (k : Nat) (o : dev_pm_opp)
    (ho : o ∈ l) (hf : o.rate = f) : ∃ p o', find_rate f l k = some (p, o') := by
  induction l generalizing k with
  | nil => simp at ho
  | cons a as ih =>
    simp only [find_rate]
    split_ifs with ha
    · exact ⟨k, a, rfl⟩
    · rcases List.mem_cons.mp ho with e | e
      · subst e; exact absurd hf ha
      · exact ih (k + 1) e

theorem find_rate_none_of_absent (f : Nat) (l : List dev_pm_opp) (k : Nat)
    (h : ∀ x ∈ l, x.rate ≠ f) : find_rate f l k = none := by
  induction l generalizing k with
  | nil => rfl
  | cons a as ih =>
    simp only [find_rate]
    rw [if_neg (h a (by simp))]
    exact ih (k + 1) (fun x hx => h x (by simp [hx]))

theorem with_availability_absent (f : Nat) (a : Bool) (l : List dev_pm_opp)
    (h : ∀ x ∈ l, x.rate ≠ f) : with_availability f a l = l := by
  unfold with_availability
  induction l with
  | nil => rfl
  | cons x xs ih =>
    simp only [List.map_cons]
    rw [if_neg (h x (by simp)), ih (fun y hy => h y (by simp [hy]))]

theorem without_rate_absent (f : Nat) (l : List dev_pm_opp)
    (h : ∀ x ∈ l, x.rate ≠ f) : without_rate f l = l := by
  unfold without_rate
  rw [List.filter_eq_self]
  intro x hx
  simpa using h x hx

theorem find_rate_set (f : Nat) (a : Bool) (l : List dev_pm_opp) (k p : Nat) (o : dev_pm_opp)
    (hs : strictly_increasing l) (h : find_rate f l k = some (p, o)) :
    l.set (p - k) { o with available := a } = with_availability f a l := by
  unfold strictly_increasing at hs
  induction l generalizing k with
  | nil => simp [find_rate] at h
  | cons x xs ih =>
    have hp := List.pairwise_cons.mp hs
    simp only [find_rate] at h
    split_ifs at h with hx
    · simp only [Option.some.injEq, Prod.mk.injEq] at h
      obtain ⟨h1, h2⟩ := h
      subst h1; subst h2
      have habs : ∀ y ∈ xs, y.rate ≠ f := by
        intro y hy
        have := hp.1 y hy
        omega
      have hrest := with_availability_absent f a xs habs
      unfold with_availability at hrest ⊢
      simp only [Nat.sub_self, List.set_cons_zero, List.map_cons, if_pos hx, hrest]
    · have hk := (find_rate_spec f xs (k + 1) p o h).1
      have e : p - k = (p - (k + 1)) + 1 := by omega
      have hrec := ih (k + 1) hp.2 h
      unfold with_availability at hrec ⊢
      rw [e]
      simp only [List.set_cons_succ, List.map_cons, if_neg hx, hrec]

theorem find_rate_erase (f : Nat) (l : List dev_pm_opp) (k p : Nat) (o : dev_pm_opp)
    (hs : strictly_increasing l) (h : find_rate f l k = some (p, o)) :
    l.eraseIdx (p - k) = without_rate f l := by
  unfold strictly_increasing at hs
  induction l generalizing k with
  | nil => simp [find_rate] at h
  | cons x xs ih =>
    have hp := List.pairwise_cons.mp hs
    simp only [find_rate] at h
    split_ifs at h with hx
    · simp only [Option.some.injEq, Prod.mk.injEq] at h
      obtain ⟨h1, h2⟩ := h
      subst h1; subst h2
      have habs : ∀ y ∈ xs, y.rate ≠ f := by
        intro y hy
        have := hp.1 y hy
        omega
      have hrest := without_rate_absent f xs habs
      unfold without_rate at hrest ⊢
      simp only [Nat.sub_self, List.eraseIdx_cons_zero, List.filter_cons, hx, ne_eq,
        not_true_eq_false, decide_False, Bool.false_eq_true, if_false, hrest]
    · have hk := (find_rate_spec f xs (k + 1) p o h).1
      have e : p - k = (p - (k + 1)) + 1 := by omega
      have hrec := ih (k + 1) hp.2 h
      unfold without_rate at hrec ⊢
      rw [e]
      simp only [List.eraseIdx_cons_succ, List.filter_cons, ne_eq, hx, not_false_eq_true,
        decide_True, if_true, hrec]

theorem strictly_increasing_unique (l : List dev_pm_opp) (hs : strictly_increasing l)
    (a b : dev_pm_opp) (ha : a ∈ l) (hb : b ∈ l) (hab : a.rate = b.rate) : a = b := by
  unfold strictly_increasing at hs
  induction l with
  | nil => simp at ha
  | cons x xs ih =>
    have hp := List.pairwise_cons.mp hs
    rcases List.mem_cons.mp ha with e1 | e1 <;> rcases List.mem_cons.mp hb with e2 | e2
    · rw [e1, e2]
    · subst e1
      have := hp.1 b e2
      omega
    · subst e2
      have := hp.1 a e1
      omega
    · exact ih hp.2 e1 e2

theorem find_rate_unique (f : Nat) (l : List dev_pm_opp) (k p : Nat) (o o' : dev_pm_opp)
    (hs : strictly_increasing l) (h : find_rate f l k = some (p, o'))
    (ho : o ∈ l) (hf : o.rate = f) : o' = o := by
  obtain ⟨_, h2, h3, _⟩ := find_rate_spec f l k p o' h
  exact strictly_increasing_unique l hs o' o (List.getElem?_mem h2) ho (by rw [h3, hf])

theorem with_availability_same (f : Nat) (a : Bool) (l : List dev_pm_opp) (o : dev_pm_opp)
    (hs : strictly_increasing l) (ho : o ∈ l) (hf : o.rate = f) (ha : o.available = a) :
    with_availability f a l = l := by
  unfold with_availability
  conv_rhs => rw [← List.map_id l]
  apply List.map_congr_left
  intro x hx
  split_ifs with hxf
  · have : x = o := strictly_increasing_unique l hs x o hx ho (by rw [hxf, hf])
    subst this
    simp only [id]
    rw [← ha]
  · rfl

theorem set_availability_spec (m : kalloc) (r : Registry) (dev : device) (i : Nat)
    (t : device_opp) (f : Nat) (a : Bool) (o : dev_pm_opp)
    (hdev : _find_device_opp r dev = .ptr i t) (hs : strictly_increasing t.opp_list)
    (ho : o ∈ t.opp_list) (hf : o.rate = f) :
    (m.opp = false → _opp_set_availability m r dev f a = (-ENOMEM, r)) ∧
    (m.opp = true → _opp_set_availability m r dev f a
      = (0, r.set i { t with opp_list := with_availability f a t.opp_list })) ∧
    (m.opp = true → o.available = a → _opp_set_availability m r dev f a = (0, r)) := by
  have hget := (find_device_opp_ptr r dev i t hdev).1
  obtain ⟨p, o', hp⟩ := find_rate_some_of_mem f t.opp_list 0 o ho hf
  have ho' : o' = o := find_rate_unique f t.opp_list 0 p o o' hs hp ho hf
  subst ho'
  have hset := find_rate_set f a t.opp_list 0 p o' hs hp
  simp only [Nat.sub_zero] at hset
  have hsame : o'.available = a → r.set i { t with opp_list := with_availability f a t.opp_list } = r := by
    intro ha
    rw [with_availability_same f a t.opp_list o' hs ho hf ha]
    exact set_self r i t hget
  refine ⟨?_, ?_, ?_⟩
  · intro hm
    simp [_opp_set_availability, hm]
  · intro hm
    simp only [_opp_set_availability, hm, Bool.not_true, Bool.false_eq_true, if_false, hdev, hp]
    split_ifs with hav
    · rw [hsame (by simpa using hav)]
    · rw [hset]
  · intro hm ha
    simp only [_opp_set_availability, hm, Bool.not_true, Bool.false_eq_true, if_false, hdev, hp]
    split_ifs with hav
    · rfl
    · rw [hset, hsame ha]

/-- C8 as stated fails when the allocation of the replacement node fails:
the table holds an unavailable OPP at 500 Hz, and dev_pm_opp_enable returns
-ENOMEM instead of 0 and leaves the OPP unavailable. -/
theorem C8_counterexample_allocation_failure :
    _find_device_opp [sample_table sample_opps] sample_dev
      = .ptr 0 (sample_table sample_opps) ∧
    sample_opp 500 900 false ∈ (sample_table sample_opps).opp_list ∧
    dev_pm_opp_enable alloc_opp_fails [sample_table sample_opps] sample_dev 500
      = (-ENOMEM, [sample_table sample_opps]) ∧
    (dev_pm_opp_enable alloc_opp_fails [sample_table sample_opps] sample_dev 500).1 ≠ 0 ∧
    dev_pm_opp_find_freq_exact
      (dev_pm_opp_enable alloc_opp_fails [sample_table sample_opps] sample_dev 500).2
      sample_dev 500 true = .err (-ERANGE) := by
  decide

/-- C8 (amended): on a table with a strictly increasing OPP list that holds an
OPP o with rate f, dev_pm_opp_enable (resp. dev_pm_opp_disable) returns -ENOMEM
and changes nothing when the replacement node cannot be allocated; otherwise it
returns 0 and the only change to the registry is that the OPP at rate f has
available = true (resp. false): its other fields, its position and every other
OPP are as before, and when o already has the requested availability the
registry is left as it was. -/
theorem C8_enable_disable_frame (m : kalloc) (r : Registry) (dev : device) (i : Nat)
    (t : device_opp) (f : Nat) (o : dev_pm_opp)
    (hdev : _find_device_opp r dev = .ptr i t) (hs : strictly_increasing t.opp_list)
    (ho : o ∈ t.opp_list) (hf : o.rate = f) :
    (m.opp = false →
      dev_pm_opp_enable m r dev f = (-ENOMEM, r) ∧
      dev_pm_opp_disable m r dev f = (-ENOMEM, r)) ∧
    (m.opp = true →
      dev_pm_opp_enable m r dev f
        = (0, r.set i { t with opp_list := with_availability f true t.opp_list }) ∧
      dev_pm_opp_disable m r dev f
        = (0, r.set i { t with opp_list := with_availability f false t.opp_list })) ∧
    (m.opp = true → o.available = true → dev_pm_opp_enable m r dev f = (0, r)) ∧
    (m.opp = true → o.available = false → dev_pm_opp_disable m r dev f = (0, r)) := by
  have he := set_availability_spec m r dev i t f true o hdev hs ho hf
  have hd := set_availability_spec m r dev i t f false o hdev hs ho hf
  exact ⟨fun hm => ⟨he.1 hm, hd.1 hm⟩, fun hm => ⟨he.2.1 hm, hd.2.1 hm⟩,
    fun hm ha => he.2.2 hm ha, fun hm ha => hd.2.2 hm ha⟩

/-- C8 (amended) on the three sample OPPs: enabling the OPP at 500 Hz changes
its available flag only, and disabling it again changes nothing. -/
theorem C8_witness :
    dev_pm_opp_enable alloc_ok [sample_table sample_opps] sample_dev 500
      = (0, [sample_table
          [sample_opp 500 900 true, sample_opp 1000 1000 true, sample_opp 1500 1100 true]]) ∧
    dev_pm_opp_disable alloc_ok [sample_table sample_opps] sample_dev 500
      = (0, [sample_table sample_opps]) ∧
    dev_pm_opp_disable alloc_opp_fails [sample_table sample_opps] sample_dev 500
      = (-ENOMEM, [sample_table sample_opps]) :=
  ⟨((C8_enable_disable_frame alloc_ok [sample_table sample_opps] sample_dev 0
      (sample_table sample_opps) 500 (sample_opp 500 900 false)
      (by decide) (by decide) (by decide) (by decide)).2.1 (by decide)).1.trans (by decide),
    (C8_enable_disable_frame alloc_ok [sample_table sample_opps] sample_dev 0
      (sample_table sample_opps) 500 (sample_opp 500 900 false)
      (by decide) (by decide) (by decide) (by decide)).2.2.2 (by decide) (by decide),
    ((C8_enable_disable_frame alloc_opp_fails [sample_table sample_opps] sample_dev 0
      (sample_table sample_opps) 500 (sample_opp 500 900 false)
      (by decide) (by decide) (by decide) (by decide)).1 (by decide)).2⟩

theorem eraseIdx_set_self (r : Registry) (i : Nat) (t : device_opp) :
    (r.set i t).eraseIdx i = r.eraseIdx i := by
  induction r generalizing i with
  | nil => rfl
  | cons a as ih =>
    cases i with
    | zero => rfl
    | succ j => simp only [List.set_cons_succ, List.eraseIdx_cons_succ, ih j]

theorem remove_device_opp_spec (r : Registry) (i : Nat) (t : device_opp)
    (h : r[i]? = some t) :
    _remove_device_opp r i = if t.opp_list.isEmpty && unblocked t then r.eraseIdx i else r := by
  unfold _remove_device_opp unblocked
  rw [h]
  simp only []
  generalize t.opp_list.isEmpty = b1
  generalize t.supported_hw.isSome = b2
  generalize t.prop_name.isSome = b3
  generalize IS_ERR t.regulator = b4
  cases b1 <;> cases b2 <;> cases b3 <;> cases b4 <;> rfl

/-- C9: on a table with a strictly increasing OPP list, dev_pm_opp_remove(dev, f)
leaves the table with its OPP list without the OPP at rate f, the other OPPs in
the order they had, or frees the table when that list is empty and nothing
blocks the table; when no OPP has rate f, or the device has no table, the
registry is left as it was. -/
theorem C9_remove (r : Registry) (dev : device) (f : Nat) :
    (∀ i t, _find_device_opp r dev = .ptr i t → strictly_increasing t.opp_list →
      (∃ o ∈ t.opp_list, o.rate = f) →
      dev_pm_opp_remove r dev f =
        if (without_rate f t.opp_list).isEmpty && unblocked t then r.eraseIdx i
        else r.set i { t with opp_list := without_rate f t.opp_list }) ∧
    (∀ i t, _find_device_opp r dev = .ptr i t → (∀ o ∈ t.opp_list, o.rate ≠ f) →
      dev_pm_opp_remove r dev f = r) ∧
    (∀ e, _find_device_opp r dev = .err e → dev_pm_opp_remove r dev f = r) := by
  refine ⟨?_, ?_, ?_⟩
  · rintro i t hdev hs ⟨o, ho, hf⟩
    have hget := (find_device_opp_ptr r dev i t hdev).1
    obtain ⟨p, o', hp⟩ := find_rate_some_of_mem f t.opp_list 0 o ho hf
    have her := find_rate_erase f t.opp_list 0 p o' hs hp
    simp only [Nat.sub_zero] at her
    have hi : i < r.length := (List.getElem?_eq_some_iff.mp hget).1
    simp only [dev_pm_opp_remove, hdev, hp, _opp_remove, hget, her]
    rw [remove_device_opp_spec _ i { t with opp_list := without_rate f t.opp_list }
      (by simp [List.getElem?_set, hi])]
    have hu : unblocked { t with opp_list := without_rate f t.opp_list } = unblocked t := rfl
    simp only [hu]
    split_ifs
    · exact eraseIdx_set_self r i _
    · rfl
  · intro i t hdev hall
    simp only [dev_pm_opp_remove, hdev, find_rate_none_of_absent f t.opp_list 0 hall]
  · intro e he
    simp only [dev_pm_opp_remove, he]

/-- C9 on the sample tables: removing 1000 Hz leaves the other two OPPs in
order, removing the only OPP frees the table, removing an absent rate or
removing from an unknown device changes nothing. -/
theorem C9_witness :
    dev_pm_opp_remove [sample_table sample_opps] sample_dev 1000
      = [sample_table [sample_opp 500 900 false, sample_opp 1500 1100 true]] ∧
    dev_pm_opp_remove [sample_table [sample_opp 1000 900 true]] sample_dev 1000 = [] ∧
    dev_pm_opp_remove [sample_table sample_opps] sample_dev 700
      = [sample_table sample_opps] ∧
    dev_pm_opp_remove [sample_table sample_opps] { addr := 8192, of_node := none } 1000
      = [sample_table sample_opps] :=
  ⟨((C9_remove [sample_table sample_opps] sample_dev 1000).1 0 (sample_table sample_opps)
      (by decide) (by decide) ⟨sample_opp 1000 1000 true, by decide, by decide⟩).trans
      (by decide),
    ((C9_remove [sample_table [sample_opp 1000 900 true]] sample_dev 1000).1 0
      (sample_table [sample_opp 1000 900 true]) (by decide) (by decide)
      ⟨sample_opp 1000 900 true, by decide, by decide⟩).trans (by decide),
    (C9_remove [sample_table sample_opps] sample_dev 700).2.1 0 (sample_table sample_opps)
      (by decide) (by decide),
    (C9_remove [sample_table sample_opps] { addr := 8192, of_node := none } 1000).2.2
      (-ENODEV) (by decide)⟩

/-! ### The suspend OPP -/

theorem suspend_opp_survives_set_availability (m : kalloc) (r : Registry) (dev : device)
    (i : Nat) (t : device_opp) (f : Nat) (a : Bool) (s : dev_pm_opp)
    (hdev : _find_device_opp r dev = .ptr i t) (hsus : t.suspend_opp = some s)
    (hav : s.available = true) :
    dev_pm_opp_get_suspend_opp (_opp_set_availability m r dev f a).2 dev = .node s := by
  have hsame : dev_pm_opp_get_suspend_opp r dev = .node s := by
    simp [dev_pm_opp_get_suspend_opp, hdev, hsus, hav]
  unfold _opp_set_availability
  split_ifs
  · exact hsame
  · rw [hdev]
    simp only
    split
    · exact hsame
    · split_ifs
      · exact hsame
      · rename_i p o _ _
        have hset := find_device_opp_set r dev i t
          { t with opp_list := t.opp_list.set p { o with available := a } } hdev rfl
        simp only [dev_pm_opp_get_suspend_opp]
        rw [hset]
        simp [hsus, hav]

/-- C10 at the failing input: the table is the one _opp_add_static_v2 builds
from a node at 1000 Hz that carries opp-suspend; dev_pm_opp_disable(dev, 1000)
returns 0 and the OPP of the table at 1000 Hz is then unavailable, yet
dev_pm_opp_get_suspend_opp still returns the replaced node, whose available
flag is set, and not NULL. -/
theorem C10_suspend_opp_not_null_after_disable :
    _opp_add_static_v2 alloc_ok [] sample_dev sample_np
      = some (0, [sample_suspend_table true]) ∧
    dev_pm_opp_get_suspend_opp [sample_suspend_table true] sample_dev
      = .node (sample_static_opp true) ∧
    dev_pm_opp_disable alloc_ok [sample_suspend_table true] sample_dev 1000
      = (0, [sample_suspend_table false]) ∧
    dev_pm_opp_find_freq_exact [sample_suspend_table false] sample_dev 1000 false
      = .node (sample_static_opp false) ∧
    dev_pm_opp_find_freq_exact [sample_suspend_table false] sample_dev 1000 true
      = .err (-ERANGE) ∧
    dev_pm_opp_get_suspend_opp [sample_suspend_table false] sample_dev
      = .node (sample_static_opp true) ∧
    dev_pm_opp_get_suspend_opp [sample_suspend_table false] sample_dev ≠ .null := by
  decide

/-! ### The list lock -/

theorem only_writes_nil : only_writes [] := by
  intro e he; cases he

theorem only_writes_append (a b : List lock_event) :
    only_writes (a ++ b) ↔ only_writes a ∧ only_writes b := by
  unfold only_writes
  simp only [List.mem_append]
  constructor
  · intro h; exact ⟨fun e he => h e (Or.inl he), fun e he => h e (Or.inr he)⟩
  · rintro ⟨h1, h2⟩ e (he | he)
    · exact h1 e he
    · exact h2 e he

theorem only_writes_cons (a : List lock_event) :
    only_writes (lock_event.write :: a) ↔ only_writes a := by
  unfold only_writes
  simp

theorem run_lock_only_writes (ws rest : List lock_event) (h : only_writes ws) :
    run_lock true (ws ++ rest) = run_lock true rest := by
  induction ws with
  | nil => rfl
  | cons e es ih =>
    have he : e = lock_event.write := h e (by simp)
    subst he
    simp only [List.cons_append, run_lock, if_true]
    exact ih ((only_writes_cons es).mp h)

theorem locked_section (ws : List lock_event) (h : only_writes ws) :
    lock_disciplined ([lock_event.lock] ++ ws ++ [lock_event.unlock]) := by
  unfold lock_disciplined
  have e : [lock_event.lock] ++ ws ++ [lock_event.unlock]
      = lock_event.lock :: (ws ++ [lock_event.unlock]) := by simp
  rw [e]
  simp only [run_lock, Bool.false_eq_true, if_false]
  rw [run_lock_only_writes ws _ h]
  rfl

theorem lock_disciplined_append (a b : List lock_event) (ha : lock_disciplined a)
    (hb : lock_disciplined b) : lock_disciplined (a ++ b) := by
  unfold lock_disciplined at *
  have key : ∀ (l : List lock_event) (h0 h1 : Bool), run_lock h0 l = some h1 →
      run_lock h0 (l ++ b) = run_lock h1 b := by
    intro l
    induction l with
    | nil => intro h0 h1 h; simp only [run_lock, Option.some.injEq] at h; subst h; rfl
    | cons e es ih =>
      intro h0 h1 h
      cases e <;> cases h0 <;> simp only [run_lock, List.cons_append, Bool.false_eq_true,
        if_false, if_true] at h ⊢
      all_goals first
        | exact ih _ _ h
        | cases h
  rw [key a false false ha]
  exact hb

theorem add_device_opp_events_writes (m : kalloc) (r : Registry) (dev : device) :
    only_writes (_add_device_opp_events m r dev) := by
  unfold _add_device_opp_events
  split
  · exact only_writes_nil
  · split_ifs
    · exact only_writes_nil
    · exact only_writes_nil
    · intro e he; simp at he; exact he

theorem allocate_opp_events_writes (m : kalloc) (r : Registry) (dev : device) :
    only_writes (_allocate_opp_events m r dev) := by
  unfold _allocate_opp_events
  split_ifs
  · exact only_writes_nil
  · exact add_device_opp_events_writes m r dev

theorem opp_add_events_writes (n : dev_pm_opp) (l : List dev_pm_opp) :
    only_writes (_opp_add_events n l) := by
  induction l with
  | nil => intro e he; simp [_opp_add_events] at he; exact he
  | cons a as ih =>
    simp only [_opp_add_events]
    split_ifs
    · exact ih
    · intro e he; simp at he; exact he
    · exact only_writes_nil

theorem remove_device_opp_events_writes (r : Registry) (i : Nat) :
    only_writes (_remove_device_opp_events r i) := by
  unfold _remove_device_opp_events
  split
  · exact only_writes_nil
  · split_ifs
    all_goals first
      | exact only_writes_nil
      | (intro e he; simp at he; exact he)

theorem opp_remove_events_writes (r : Registry) (i : Nat) (pos : Option Nat) :
    only_writes (_opp_remove_events r i pos) := by
  unfold _opp_remove_events
  split
  · exact only_writes_nil
  · split
    · exact (only_writes_cons _).mpr (remove_device_opp_events_writes _ _)
    · exact (only_writes_cons _).mpr (remove_device_opp_events_writes _ _)

theorem remove_static_loop_events_writes (i : Nat) (l : List dev_pm_opp) (pos : Nat)
    (r : Registry) : only_writes (remove_static_loop_events i l pos r) := by
  induction l generalizing pos r with
  | nil => exact only_writes_nil
  | cons a as ih =>
    simp only [remove_static_loop_events]
    split_ifs
    · exact (only_writes_append _ _).mpr ⟨opp_remove_events_writes _ _ _, ih _ _⟩
    · exact ih _ _

theorem opp_add_v1_events_disciplined (m : kalloc) (r : Registry) (dev : device)
    (freq u_volt : Nat) (dynamic : Bool) (es : List lock_event)
    (h : _opp_add_v1_events m r dev freq u_volt dynamic = some es) : lock_disciplined es := by
  unfold _opp_add_v1_events at h
  split at h
  · cases h
  · simp only [Option.some.injEq] at h
    rw [← h]
    exact locked_section _ (allocate_opp_events_writes m r dev)
  · simp only [Option.some.injEq] at h
    rw [← h]
    apply locked_section
    refine (only_writes_append _ _).mpr ⟨(only_writes_append _ _).mpr
      ⟨allocate_opp_events_writes m r dev, opp_add_events_writes _ _⟩, ?_⟩
    split_ifs
    · exact opp_remove_events_writes _ _ _
    · exact only_writes_nil

theorem opp_add_static_v2_events_disciplined (m : kalloc) (r : Registry) (dev : device)
    (np : device_node) (es : List lock_event)
    (h : _opp_add_static_v2_events m r dev np = some es) : lock_disciplined es := by
  unfold _opp_add_static_v2_events at h
  split at h
  · cases h
  · simp only [Option.some.injEq] at h
    rw [← h]
    exact locked_section _ (allocate_opp_events_writes m r dev)
  · simp only [Option.some.injEq] at h
    rw [← h]
    apply locked_section
    refine (only_writes_append _ _).mpr ⟨allocate_opp_events_writes m r dev, ?_⟩
    split
    · split_ifs
      all_goals try simp only [only_writes_append]
      all_goals first
        | exact opp_remove_events_writes _ _ _
        | exact ⟨opp_add_events_writes _ _, opp_remove_events_writes _ _ _⟩
        | refine ⟨⟨opp_add_events_writes _ _, ?_⟩, ?_⟩
      all_goals first
        | exact only_writes_nil
        | (intro e he; simp at he; exact he)
    · exact opp_remove_events_writes _ _ _

theorem remove_events_disciplined (r : Registry) (dev : device) (freq : Nat) :
    lock_disciplined (dev_pm_opp_remove_events r dev freq) := by
  unfold dev_pm_opp_remove_events
  apply locked_section
  split
  · exact only_writes_nil
  · split
    · exact only_writes_nil
    · exact opp_remove_events_writes _ _ _

theorem set_availability_events_disciplined (m : kalloc) (r : Registry) (dev : device)
    (freq : Nat) (a : Bool) :
    lock_disciplined (_opp_set_availability_events m r dev freq a) := by
  unfold _opp_set_availability_events
  split_ifs
  · rfl
  · apply locked_section
    split
    · exact only_writes_nil
    · split
      · exact only_writes_nil
      · split_ifs
        · exact only_writes_nil
        · intro e he; simp at he; exact he

theorem of_remove_table_events_disciplined (r : Registry) (dev : device) :
    lock_disciplined (dev_pm_opp_of_remove_table_events r dev) := by
  unfold dev_pm_opp_of_remove_table_events
  apply locked_section
  split
  · exact only_writes_nil
  · split_ifs
    · exact remove_static_loop_events_writes _ _ _ _
    · intro e he; simp at he; exact he

theorem two_writes : only_writes [lock_event.write, lock_event.write] := by
  intro e he; simp at he; exact he

theorem one_write : only_writes [lock_event.write] := by
  intro e he; simp at he; exact he

theorem lock_unlock_disciplined : lock_disciplined [lock_event.lock, lock_event.unlock] := by
  decide

theorem set_supported_hw_disciplined (m : kalloc) (ok : Bool) (r : Registry) (dev : device)
    (versions : List Nat) (res : Int × Registry × List lock_event)
    (h : dev_pm_opp_set_supported_hw m ok r dev versions = some res) :
    lock_disciplined res.2.2 := by
  unfold dev_pm_opp_set_supported_hw at h
  split at h
  · cases h
  · simp only [Option.some.injEq] at h
    rw [← h]
    exact locked_section _ (add_device_opp_events_writes m r dev)
  · split_ifs at h
    all_goals simp only [Option.some.injEq] at h
    all_goals rw [← h]
    all_goals apply locked_section
    all_goals simp only [only_writes_append]
    · exact ⟨add_device_opp_events_writes m r dev, remove_device_opp_events_writes _ _⟩
    · exact ⟨⟨add_device_opp_events_writes m r dev, one_write⟩,
        remove_device_opp_events_writes _ _⟩
    · exact ⟨add_device_opp_events_writes m r dev, two_writes⟩

theorem set_prop_name_disciplined (m : kalloc) (ok : Bool) (r : Registry) (dev : device)
    (name : String) (res : Int × Registry × List lock_event)
    (h : dev_pm_opp_set_prop_name m ok r dev name = some res) :
    lock_disciplined res.2.2 := by
  unfold dev_pm_opp_set_prop_name at h
  split at h
  · cases h
  · simp only [Option.some.injEq] at h
    rw [← h]
    exact locked_section _ (add_device_opp_events_writes m r dev)
  · split_ifs at h
    all_goals simp only [Option.some.injEq] at h
    all_goals rw [← h]
    all_goals apply locked_section
    all_goals simp only [only_writes_append]
    · exact ⟨add_device_opp_events_writes m r dev, remove_device_opp_events_writes _ _⟩
    · exact ⟨⟨add_device_opp_events_writes m r dev, one_write⟩,
        remove_device_opp_events_writes _ _⟩
    · exact ⟨add_device_opp_events_writes m r dev, one_write⟩

theorem set_regulator_disciplined (m : kalloc) (reg : Nat) (r : Registry) (dev : device)
    (res : Int × Registry × List lock_event)
    (h : dev_pm_opp_set_regulator m reg r dev = some res) :
    lock_disciplined res.2.2 := by
  unfold dev_pm_opp_set_regulator at h
  split at h
  · cases h
  · simp only [Option.some.injEq] at h
    rw [← h]
    exact locked_section _ (add_device_opp_events_writes m r dev)
  · split_ifs at h
    all_goals simp only [Option.some.injEq] at h
    all_goals rw [← h]
    all_goals apply locked_section
    all_goals simp only [only_writes_append]
    · exact ⟨add_device_opp_events_writes m r dev, remove_device_opp_events_writes _ _⟩
    · exact ⟨add_device_opp_events_writes m r dev, remove_device_opp_events_writes _ _⟩
    · exact ⟨add_device_opp_events_writes m r dev, remove_device_opp_events_writes _ _⟩
    · exact ⟨add_device_opp_events_writes m r dev, one_write⟩

theorem put_supported_hw_disciplined (r : Registry) (dev : device) :
    lock_disciplined (dev_pm_opp_put_supported_hw r dev).2 := by
  unfold dev_pm_opp_put_supported_hw
  split
  · exact lock_unlock_disciplined
  · split_ifs
    · exact lock_unlock_disciplined
    · apply locked_section
      exact (only_writes_append _ _).mpr ⟨two_writes, remove_device_opp_events_writes _ _⟩

theorem put_prop_name_disciplined (r : Registry) (dev : device) :
    lock_disciplined (dev_pm_opp_put_prop_name r dev).2 := by
  unfold dev_pm_opp_put_prop_name
  split
  · exact lock_unlock_disciplined
  · split_ifs
    · exact lock_unlock_disciplined
    · apply locked_section
      exact (only_writes_append _ _).mpr ⟨one_write, remove_device_opp_events_writes _ _⟩

theorem put_regulator_disciplined (r : Registry) (dev : device) :
    lock_disciplined (dev_pm_opp_put_regulator r dev).2 := by
  unfold dev_pm_opp_put_regulator
  split
  · exact lock_unlock_disciplined
  · split_ifs
    · exact lock_unlock_disciplined
    · apply locked_section
      exact (only_writes_append _ _).mpr ⟨one_write, remove_device_opp_events_writes _ _⟩

theorem add_static_loop_disciplined (ms : Nat → kalloc) (dev : device)
    (l : List device_node) (k : Nat) (r : Registry) (es : List lock_event)
    (res : Int × Registry × List lock_event) (hes : lock_disciplined es)
    (h : add_static_loop ms dev l k r es = some res) : lock_disciplined res.2.2 := by
  induction l generalizing k r es with
  | nil =>
    simp only [add_static_loop, Option.some.injEq] at h
    rw [← h]; exact hes
  | cons np rest ih =>
    simp only [add_static_loop] at h
    split at h
    · rename_i ret r1 es1 _ hev
      have hd := lock_disciplined_append es es1 hes
        (opp_add_static_v2_events_disciplined (ms k) r dev np es1 hev)
      split_ifs at h
      · simp only [Option.some.injEq] at h
        rw [← h]; exact hd
      · exact ih _ _ _ hd h
    · cases h

theorem of_add_opp_table_v2_disciplined (m : kalloc) (ms : Nat → kalloc) (r : Registry)
    (dev : device) (opp_np : opp_table_node) (res : Int × Registry × List lock_event)
    (h : _of_add_opp_table_v2 m ms r dev opp_np = some res) : lock_disciplined res.2.2 := by
  unfold _of_add_opp_table_v2 at h
  split at h
  · split at h
    · simp only [Option.some.injEq] at h
      rw [← h]; exact lock_unlock_disciplined
    · simp only [Option.some.injEq] at h
      rw [← h]
      exact locked_section _ one_write
  · split at h
    · cases h
    · rename_i ret r1 es hloop
      have hes := add_static_loop_disciplined ms dev _ _ _ _ _ lock_unlock_disciplined hloop
      simp only at hes
      split_ifs at h
      · simp only [Option.some.injEq] at h
        rw [← h]
        exact lock_disciplined_append _ _ hes (of_remove_table_events_disciplined r1 dev)
      · simp only [Option.some.injEq] at h
        rw [← h]; exact hes
      · split at h
        · simp only [Option.some.injEq] at h
          rw [← h]
          exact lock_disciplined_append _ _
            (lock_disciplined_append _ _ hes lock_unlock_disciplined)
            (of_remove_table_events_disciplined r1 dev)
        · simp only [Option.some.injEq] at h
          rw [← h]
          exact lock_disciplined_append _ _ hes (locked_section _ two_writes)

theorem add_device_opp_returns (m : kalloc) (r : Registry) (dev : device)
    (hdev : IS_ERR_OR_NULL dev.addr = false) : (_add_device_opp m r dev).isSome = true := by
  unfold _add_device_opp
  split
  · rfl
  · split_ifs <;> first | rfl | simp_all

theorem allocate_opp_returns (m : kalloc) (r : Registry) (dev : device)
    (hdev : IS_ERR_OR_NULL dev.addr = false) : (_allocate_opp m r dev).isSome = true := by
  unfold _allocate_opp
  split_ifs
  · rfl
  · exact add_device_opp_returns m r dev hdev

theorem opp_add_v1_events_returns (m : kalloc) (r : Registry) (dev : device)
    (freq u_volt : Nat) (dynamic : Bool) (hdev : IS_ERR_OR_NULL dev.addr = false) :
    (_opp_add_v1_events m r dev freq u_volt dynamic).isSome = true := by
  have h := allocate_opp_returns m r dev hdev
  unfold _opp_add_v1_events
  split
  · rename_i heq; rw [heq] at h; cases h
  · rfl
  · rfl

theorem opp_add_static_v2_events_returns (m : kalloc) (r : Registry) (dev : device)
    (np : device_node) (hdev : IS_ERR_OR_NULL dev.addr = false) :
    (_opp_add_static_v2_events m r dev np).isSome = true := by
  have h := allocate_opp_returns m r dev hdev
  unfold _opp_add_static_v2_events
  split
  · rename_i heq; rw [heq] at h; cases h
  · rfl
  · rfl

theorem opp_add_static_v2_returns (m : kalloc) (r : Registry) (dev : device)
    (np : device_node) (hdev : IS_ERR_OR_NULL dev.addr = false) :
    (_opp_add_static_v2 m r dev np).isSome = true := by
  have h := allocate_opp_returns m r dev hdev
  unfold _opp_add_static_v2
  split
  · rename_i heq; rw [heq] at h; cases h
  · rfl
  · split
    · simp only
      split_ifs <;> rfl
    · rfl

theorem add_static_loop_returns (ms : Nat → kalloc) (dev : device)
    (l : List device_node) (k : Nat) (r : Registry) (es : List lock_event)
    (hdev : IS_ERR_OR_NULL dev.addr = false) :
    (add_static_loop ms dev l k r es).isSome = true := by
  induction l generalizing k r es with
  | nil => rfl
  | cons np rest ih =>
    simp only [add_static_loop]
    have h1 := opp_add_static_v2_returns (ms k) r dev np hdev
    have h2 := opp_add_static_v2_events_returns (ms k) r dev np hdev
    obtain ⟨⟨ret, r1⟩, e1⟩ := Option.isSome_iff_exists.mp h1
    obtain ⟨es1, e2⟩ := Option.isSome_iff_exists.mp h2
    rw [e1, e2]
    simp only
    split_ifs
    · rfl
    · exact ih _ _ _

theorem of_add_opp_table_v2_returns (m : kalloc) (ms : Nat → kalloc) (r : Registry)
    (dev : device) (opp_np : opp_table_node) (hdev : IS_ERR_OR_NULL dev.addr = false) :
    (_of_add_opp_table_v2 m ms r dev opp_np).isSome = true := by
  unfold _of_add_opp_table_v2
  split
  · split <;> rfl
  · have h := add_static_loop_returns ms dev opp_np.children 0 r
      [lock_event.lock, lock_event.unlock] hdev
    split
    · rename_i heq; rw [heq] at h; cases h
    · split_ifs
      · rfl
      · rfl
      · split <;> rfl

theorem set_supported_hw_returns (m : kalloc) (ok : Bool) (r : Registry) (dev : device)
    (versions : List Nat) (hdev : IS_ERR_OR_NULL dev.addr = false) :
    (dev_pm_opp_set_supported_hw m ok r dev versions).isSome = true := by
  have h := add_device_opp_returns m r dev hdev
  unfold dev_pm_opp_set_supported_hw
  split
  · rename_i heq; rw [heq] at h; cases h
  · rfl
  · split_ifs <;> rfl

theorem set_prop_name_returns (m : kalloc) (ok : Bool) (r : Registry) (dev : device)
    (name : String) (hdev : IS_ERR_OR_NULL dev.addr = false) :
    (dev_pm_opp_set_prop_name m ok r dev name).isSome = true := by
  have h := add_device_opp_returns m r dev hdev
  unfold dev_pm_opp_set_prop_name
  split
  · rename_i heq; rw [heq] at h; cases h
  · rfl
  · split_ifs <;> rfl

theorem set_regulator_returns (m : kalloc) (reg : Nat) (r : Registry) (dev : device)
    (hdev : IS_ERR_OR_NULL dev.addr = false) :
    (dev_pm_opp_set_regulator m reg r dev).isSome = true := by
  have h := add_device_opp_returns m r dev hdev
  unfold dev_pm_opp_set_regulator
  split
  · rename_i heq; rw [heq] at h; cases h
  · rfl
  · split_ifs <;> rfl

theorem add_device_opp_get (m : kalloc) (r : Registry) (dev : device) (i : Nat)
    (t : device_opp) (r1 : Registry)
    (h : _add_device_opp m r dev = some (some (i, t), r1)) : r1[i]? = some t :=
  (find_device_opp_ptr r1 dev i t (add_device_opp_find m r dev i t r1 h)).1

theorem allocate_opp_get (m : kalloc) (r : Registry) (dev : device) (i : Nat)
    (t : device_opp) (r1 : Registry)
    (h : _allocate_opp m r dev = some (some (i, t), r1)) : r1[i]? = some t :=
  (find_device_opp_ptr r1 dev i t (allocate_opp_find m r dev i t r1 h)).1

theorem add_device_opp_silent (m : kalloc) (r : Registry) (dev : device)
    (res : Option (Nat × device_opp)) (r1 : Registry)
    (h : _add_device_opp m r dev = some (res, r1))
    (hw : lock_event.write ∉ _add_device_opp_events m r dev) : r1 = r := by
  unfold _add_device_opp at h
  unfold _add_device_opp_events at hw
  split at h
  · simp only [Option.some.injEq, Prod.mk.injEq] at h
    exact h.2.symm
  · rename_i e he
    rw [he] at hw
    simp only at hw
    split_ifs at h hw
    · simp only [Option.some.injEq, Prod.mk.injEq] at h; exact h.2.symm
    · simp only [Option.some.injEq, Prod.mk.injEq] at h; exact h.2.symm
    · simp at hw

theorem allocate_opp_silent (m : kalloc) (r : Registry) (dev : device)
    (res : Option (Nat × device_opp)) (r1 : Registry)
    (h : _allocate_opp m r dev = some (res, r1))
    (hw : lock_event.write ∉ _allocate_opp_events m r dev) : r1 = r := by
  unfold _allocate_opp at h
  unfold _allocate_opp_events at hw
  split_ifs at h hw
  · simp only [Option.some.injEq, Prod.mk.injEq] at h; exact h.2.symm
  · exact add_device_opp_silent m r dev res r1 h hw

theorem opp_add_silent (n : dev_pm_opp) (l : List dev_pm_opp)
    (hw : lock_event.write ∉ _opp_add_events n l) : (_opp_add n l).2 = l := by
  induction l with
  | nil => simp [_opp_add_events] at hw
  | cons a as ih =>
    simp only [_opp_add_events] at hw
    simp only [_opp_add]
    split_ifs at hw ⊢ with h1 h2
    · simp only [ih hw]
    · simp at hw
    · rfl
    · rfl

theorem remove_device_opp_silent (r : Registry) (i : Nat)
    (hw : lock_event.write ∉ _remove_device_opp_events r i) : _remove_device_opp r i = r := by
  unfold _remove_device_opp
  unfold _remove_device_opp_events at hw
  split
  · rfl
  · rename_i t ht
    rw [ht] at hw
    simp only at hw
    split_ifs at hw ⊢
    all_goals first
      | rfl
      | simp at hw

theorem opp_remove_events_write (r : Registry) (i : Nat) (pos : Option Nat) (t : device_opp)
    (h : r[i]? = some t) : lock_event.write ∈ _opp_remove_events r i pos := by
  unfold _opp_remove_events
  rw [h]
  cases pos <;> simp

theorem opp_add_v1_silent (m : kalloc) (r : Registry) (dev : device) (freq u_volt : Nat)
    (dynamic : Bool) (ret : Int) (r' : Registry) (es : List lock_event)
    (h : _opp_add_v1 m r dev freq u_volt dynamic = some (ret, r'))
    (he : _opp_add_v1_events m r dev freq u_volt dynamic = some es)
    (hw : lock_event.write ∉ es) : r' = r := by
  unfold _opp_add_v1 at h
  unfold _opp_add_v1_events at he
  split at h
  · cases h
  · rename_i r1 ha
    rw [ha] at he
    simp only [Option.some.injEq, Prod.mk.injEq] at h he
    rw [← he] at hw
    simp only [List.mem_append, List.mem_singleton, not_or] at hw
    rw [← h.2]
    exact allocate_opp_silent m r dev _ r1 ha hw.1.2
  · rename_i i t r1 ha
    rw [ha] at he
    simp only [Option.some.injEq] at he
    rw [← he] at hw
    simp only [List.mem_append, List.mem_singleton, not_or] at hw
    obtain ⟨⟨_, ⟨hw1, hw2⟩, hw3⟩, _⟩ := hw
    have hr1 := allocate_opp_silent m r dev _ r1 ha hw1
    have hget := allocate_opp_get m r dev i t r1 ha
    simp only at h
    split_ifs at h hw3 with hret
    · exact absurd (opp_remove_events_write r1 i none t hget) hw3
    · simp only [Option.some.injEq, Prod.mk.injEq] at h
      rw [← h.2, opp_add_silent _ _ hw2]
      rw [show ({ t with opp_list := t.opp_list } : device_opp) = t from rfl,
        set_self r1 i t hget, hr1]

theorem opp_add_static_v2_silent (m : kalloc) (r : Registry) (dev : device)
    (np : device_node) (ret : Int) (r' : Registry) (es : List lock_event)
    (h : _opp_add_static_v2 m r dev np = some (ret, r'))
    (he : _opp_add_static_v2_events m r dev np = some es)
    (hw : lock_event.write ∉ es) : r' = r := by
  unfold _opp_add_static_v2 at h
  unfold _opp_add_static_v2_events at he
  split at h
  · cases h
  · rename_i r1 ha
    rw [ha] at he
    simp only [Option.some.injEq, Prod.mk.injEq] at h he
    rw [← he] at hw
    simp only [List.mem_append, List.mem_singleton, not_or] at hw
    rw [← h.2]
    exact allocate_opp_silent m r dev _ r1 ha hw.1.2
  · rename_i i t r1 ha
    rw [ha] at he
    simp only [Option.some.injEq] at he
    rw [← he] at hw
    simp only [List.mem_append, List.mem_singleton, not_or] at hw
    obtain ⟨⟨_, hw1, hw2⟩, _⟩ := hw
    have hr1 := allocate_opp_silent m r dev _ r1 ha hw1
    have hget := allocate_opp_get m r dev i t r1 ha
    have hrm := opp_remove_events_write r1 i none t hget
    split at h
    · rename_i rate hz
      rw [hz] at hw2
      simp only at h hw2
      by_cases hsup : (!_opp_is_supported t np) = true
      · rw [if_pos hsup] at hw2
        exact absurd hrm hw2
      · rw [if_neg hsup] at h hw2
        by_cases hparse : (opp_parse_supplies (opp_v2 np rate) np t).1 ≠ 0
        · rw [if_pos hparse] at hw2
          exact absurd hrm hw2
        · rw [if_neg hparse] at h hw2
          by_cases hadd :
              (_opp_add (opp_parse_supplies (opp_v2 np rate) np t).2 t.opp_list).1 ≠ 0
          · rw [if_pos hadd] at hw2
            simp only [List.mem_append, not_or] at hw2
            exact absurd hrm hw2.2
          · rw [if_neg hadd] at h hw2
            simp only [List.mem_append, not_or] at hw2
            obtain ⟨⟨hwa, hws⟩, hwl⟩ := hw2
            have hl := opp_add_silent _ _ hwa
            have hsus : ¬ (np.opp_suspend && !t.suspend_opp.isSome) = true := by
              intro hc
              rw [if_pos hc] at hws
              simp at hws
            have hlat : ¬ (opp_parse_supplies (opp_v2 np rate) np t).2.clock_latency_ns >
                t.clock_latency_ns_max := by
              intro hc
              rw [if_pos hc] at hwl
              simp at hwl
            simp only [Option.some.injEq, Prod.mk.injEq] at h
            rw [← h.2, hl, if_neg hlat]
            have key : ∀ x : Option dev_pm_opp, x = t.suspend_opp →
                List.set r1 i { t with
                  opp_list := t.opp_list
                  clock_latency_ns_max := t.clock_latency_ns_max
                  suspend_opp := x } = r := by
              intro x hx
              subst hx
              exact (set_self r1 i t hget).trans hr1
            apply key
            cases hso : t.suspend_opp with
            | none =>
              have hf : np.opp_suspend = false := by
                cases hb : np.opp_suspend with
                | false => rfl
                | true => exact absurd (by simp [hb, hso]) hsus
              simp [hf]
            | some old => simp
    · rename_i hne
      split at hw2
      · rename_i rate hz
        exact absurd hz (hne rate)
      · exact absurd hrm hw2

theorem remove_silent (r : Registry) (dev : device) (freq : Nat)
    (hw : lock_event.write ∉ dev_pm_opp_remove_events r dev freq) :
    dev_pm_opp_remove r dev freq = r := by
  unfold dev_pm_opp_remove
  unfold dev_pm_opp_remove_events at hw
  simp only [List.mem_append, List.mem_singleton, not_or] at hw
  obtain ⟨⟨_, hw⟩, _⟩ := hw
  split
  · rfl
  · rename_i i t hf
    rw [hf] at hw
    simp only at hw
    split
    · rfl
    · rename_i p o hp
      rw [hp] at hw
      exact absurd (opp_remove_events_write r i (some p) t (find_device_opp_ptr r dev i t hf).1) hw

theorem set_availability_silent (m : kalloc) (r : Registry) (dev : device) (freq : Nat)
    (a : Bool) (hw : lock_event.write ∉ _opp_set_availability_events m r dev freq a) :
    (_opp_set_availability m r dev freq a).2 = r := by
  unfold _opp_set_availability
  unfold _opp_set_availability_events at hw
  split_ifs at hw ⊢
  · rfl
  · simp only [List.mem_append, List.mem_singleton, not_or] at hw
    obtain ⟨⟨_, hw⟩, _⟩ := hw
    split
    · rfl
    · rename_i i t hf
      rw [hf] at hw
      simp only at hw
      split
      · rfl
      · rename_i p o hp
        rw [hp] at hw
        simp only at hw
        split_ifs at hw ⊢
        · rfl
        · simp at hw

theorem remove_static_loop_silent (i : Nat) (l : List dev_pm_opp) (pos : Nat) (r : Registry)
    (t : device_opp) (hget : r[i]? = some t)
    (hw : lock_event.write ∉ remove_static_loop_events i l pos r) :
    remove_static_loop i l pos r = r := by
  induction l generalizing pos with
  | nil => rfl
  | cons a as ih =>
    simp only [remove_static_loop_events] at hw
    simp only [remove_static_loop]
    split_ifs at hw ⊢
    · simp only [List.mem_append, not_or] at hw
      exact absurd (opp_remove_events_write r i (some pos) t hget) hw.1
    · exact ih _ hw

theorem of_remove_table_silent (r : Registry) (dev : device)
    (hw : lock_event.write ∉ dev_pm_opp_of_remove_table_events r dev) :
    dev_pm_opp_of_remove_table r dev = r := by
  unfold dev_pm_opp_of_remove_table
  unfold dev_pm_opp_of_remove_table_events at hw
  simp only [List.mem_append, List.mem_singleton, not_or] at hw
  obtain ⟨⟨_, hw⟩, _⟩ := hw
  split
  · rfl
  · rename_i i t hf
    rw [hf] at hw
    simp only at hw
    split_ifs at hw ⊢
    · exact remove_static_loop_silent i _ 0 r t (find_device_opp_ptr r dev i t hf).1 hw
    · simp at hw

theorem set_supported_hw_silent (m : kalloc) (ok : Bool) (r : Registry) (dev : device)
    (versions : List Nat) (res : Int × Registry × List lock_event)
    (h : dev_pm_opp_set_supported_hw m ok r dev versions = some res)
    (hw : lock_event.write ∉ res.2.2) : res.2.1 = r := by
  unfold dev_pm_opp_set_supported_hw at h
  split at h
  · cases h
  · rename_i r1 ha
    simp only [Option.some.injEq] at h
    rw [← h] at hw ⊢
    simp only [List.mem_append, List.mem_singleton, not_or] at hw
    exact add_device_opp_silent m r dev _ r1 ha hw.1.2
  · rename_i i t r1 ha
    split_ifs at h
    all_goals simp only [Option.some.injEq] at h
    all_goals rw [← h] at hw ⊢
    all_goals simp only [List.mem_append, List.mem_singleton, List.mem_cons, not_or] at hw
    · rw [remove_device_opp_silent r1 i hw.1.2.2]
      exact add_device_opp_silent m r dev _ r1 ha hw.1.2.1
    · simp at hw
    · simp at hw

theorem set_prop_name_silent (m : kalloc) (ok : Bool) (r : Registry) (dev : device)
    (name : String) (res : Int × Registry × List lock_event)
    (h : dev_pm_opp_set_prop_name m ok r dev name = some res)
    (hw : lock_event.write ∉ res.2.2) : res.2.1 = r := by
  unfold dev_pm_opp_set_prop_name at h
  split at h
  · cases h
  · rename_i r1 ha
    simp only [Option.some.injEq] at h
    rw [← h] at hw ⊢
    simp only [List.mem_append, List.mem_singleton, not_or] at hw
    exact add_device_opp_silent m r dev _ r1 ha hw.1.2
  · rename_i i t r1 ha
    split_ifs at h
    all_goals simp only [Option.some.injEq] at h
    all_goals rw [← h] at hw ⊢
    all_goals simp only [List.mem_append, List.mem_singleton, List.mem_cons, not_or] at hw
    · rw [remove_device_opp_silent r1 i hw.1.2.2]
      exact add_device_opp_silent m r dev _ r1 ha hw.1.2.1
    · simp at hw
    · simp at hw

theorem set_regulator_silent (m : kalloc) (reg : Nat) (r : Registry) (dev : device)
    (res : Int × Registry × List lock_event)
    (h : dev_pm_opp_set_regulator m reg r dev = some res)
    (hw : lock_event.write ∉ res.2.2) : res.2.1 = r := by
  unfold dev_pm_opp_set_regulator at h
  split at h
  · cases h
  · rename_i r1 ha
    simp only [Option.some.injEq] at h
    rw [← h] at hw ⊢
    simp only [List.mem_append, List.mem_singleton, not_or] at hw
    exact add_device_opp_silent m r dev _ r1 ha hw.1.2
  · rename_i i t r1 ha
    split_ifs at h
    all_goals simp only [Option.some.injEq] at h
    all_goals rw [← h] at hw ⊢
    all_goals simp only [List.mem_append, List.mem_singleton, List.mem_cons, not_or] at hw
    · rw [remove_device_opp_silent r1 i hw.1.2.2]
      exact add_device_opp_silent m r dev _ r1 ha hw.1.2.1
    · rw [remove_device_opp_silent r1 i hw.1.2.2]
      exact add_device_opp_silent m r dev _ r1 ha hw.1.2.1
    · rw [remove_device_opp_silent r1 i hw.1.2.2]
      exact add_device_opp_silent m r dev _ r1 ha hw.1.2.1
    · simp at hw

theorem put_supported_hw_silent (r : Registry) (dev : device)
    (hw : lock_event.write ∉ (dev_pm_opp_put_supported_hw r dev).2) :
    (dev_pm_opp_put_supported_hw r dev).1 = r := by
  unfold dev_pm_opp_put_supported_hw at hw ⊢
  cases hf : _find_device_opp r dev with
  | err e => rfl
  | ptr i t =>
    rw [hf] at hw
    simp only at hw ⊢
    split_ifs at hw ⊢
    · rfl
    · simp at hw

theorem put_prop_name_silent (r : Registry) (dev : device)
    (hw : lock_event.write ∉ (dev_pm_opp_put_prop_name r dev).2) :
    (dev_pm_opp_put_prop_name r dev).1 = r := by
  unfold dev_pm_opp_put_prop_name at hw ⊢
  cases hf : _find_device_opp r dev with
  | err e => rfl
  | ptr i t =>
    rw [hf] at hw
    simp only at hw ⊢
    split_ifs at hw ⊢
    · rfl
    · simp at hw

theorem put_regulator_silent (r : Registry) (dev : device)
    (hw : lock_event.write ∉ (dev_pm_opp_put_regulator r dev).2) :
    (dev_pm_opp_put_regulator r dev).1 = r := by
  unfold dev_pm_opp_put_regulator at hw ⊢
  cases hf : _find_device_opp r dev with
  | err e => rfl
  | ptr i t =>
    rw [hf] at hw
    simp only at hw ⊢
    split_ifs at hw ⊢
    · rfl
    · simp at hw

theorem add_static_loop_events_mono (ms : Nat → kalloc) (dev : device)
    (l : List device_node) (k : Nat) (r : Registry) (es : List lock_event)
    (res : Int × Registry × List lock_event)
    (h : add_static_loop ms dev l k r es = some res) :
    ∀ e, e ∈ es → e ∈ res.2.2 := by
  induction l generalizing k r es with
  | nil =>
    simp only [add_static_loop, Option.some.injEq] at h
    rw [← h]
    exact fun e he => he
  | cons np rest ih =>
    simp only [add_static_loop] at h
    split at h
    · rename_i ret r1 es1 hst hev
      split_ifs at h
      · simp only [Option.some.injEq] at h
        rw [← h]
        intro e he
        simp [he]
      · intro e he
        exact ih _ _ _ h e (by simp [he])
    · cases h

theorem add_static_loop_silent (ms : Nat → kalloc) (dev : device)
    (l : List device_node) (k : Nat) (r : Registry) (es : List lock_event)
    (res : Int × Registry × List lock_event)
    (h : add_static_loop ms dev l k r es = some res)
    (hw : lock_event.write ∉ res.2.2) : res.2.1 = r := by
  induction l generalizing k r es with
  | nil =>
    simp only [add_static_loop, Option.some.injEq] at h
    rw [← h]
  | cons np rest ih =>
    simp only [add_static_loop] at h
    split at h
    · rename_i ret r1 es1 hst hev
      split_ifs at h
      · simp only [Option.some.injEq] at h
        rw [← h] at hw ⊢
        simp only [List.mem_append, not_or] at hw
        exact opp_add_static_v2_silent (ms k) r dev np ret r1 es1 hst hev hw.2
      · have hrest := ih _ _ _ h
        have hsub : lock_event.write ∉ es1 := by
          intro hmem
          apply hw
          exact add_static_loop_events_mono ms dev rest (k + 1) r1 (es ++ es1) res h
            lock_event.write (by simp [hmem])
        rw [hrest]
        exact opp_add_static_v2_silent (ms k) r dev np ret r1 es1 hst hev hsub
    · cases h

theorem of_add_opp_table_v2_silent (m : kalloc) (ms : Nat → kalloc) (r : Registry)
    (dev : device) (opp_np : opp_table_node) (res : Int × Registry × List lock_event)
    (h : _of_add_opp_table_v2 m ms r dev opp_np = some res)
    (hw : lock_event.write ∉ res.2.2) : res.2.1 = r := by
  unfold _of_add_opp_table_v2 at h
  split at h
  · split at h
    · simp only [Option.some.injEq] at h
      rw [← h]
    · simp only [Option.some.injEq] at h
      rw [← h] at hw
      simp at hw
  · split at h
    · cases h
    · rename_i ret r1 es hl
      have hsil := add_static_loop_silent ms dev opp_np.children 0 r [.lock, .unlock]
        (ret, r1, es) hl
      simp only at hsil
      split_ifs at h
      · simp only [Option.some.injEq] at h
        rw [← h] at hw ⊢
        simp only [List.mem_append, not_or] at hw
        rw [← hsil hw.1]
        exact of_remove_table_silent r1 dev hw.2
      · simp only [Option.some.injEq] at h
        rw [← h] at hw ⊢
        exact hsil hw
      · split at h
        · simp only [Option.some.injEq] at h
          rw [← h] at hw ⊢
          simp only [List.mem_append, not_or] at hw
          rw [← hsil hw.1.1]
          exact of_remove_table_silent r1 dev hw.2
        · simp only [Option.some.injEq] at h
          rw [← h] at hw
          simp at hw

theorem writer_registry_silent (r : Registry) (c : writer_call) (es : List lock_event)
    (r' : Registry) (he : writer_events r c = some es) (hr : writer_registry r c = some r')
    (hw : lock_event.write ∉ es) : r' = r := by
  cases c with
  | opp_add_v1 m dev freq u_volt dynamic =>
    simp only [writer_registry, Option.map_eq_some'] at hr
    obtain ⟨res, h1, h2⟩ := hr
    rw [← h2]
    exact opp_add_v1_silent m r dev freq u_volt dynamic res.1 res.2 es h1 he hw
  | opp_add_static_v2 m dev np =>
    simp only [writer_registry, Option.map_eq_some'] at hr
    obtain ⟨res, h1, h2⟩ := hr
    rw [← h2]
    exact opp_add_static_v2_silent m r dev np res.1 res.2 es h1 he hw
  | opp_remove dev freq =>
    simp only [writer_registry, writer_events, Option.some.injEq] at hr he
    rw [← hr]; rw [← he] at hw
    exact remove_silent r dev freq hw
  | opp_set_availability m dev freq a =>
    simp only [writer_registry, writer_events, Option.some.injEq] at hr he
    rw [← hr]; rw [← he] at hw
    exact set_availability_silent m r dev freq a hw
  | set_supported_hw m ok dev versions =>
    simp only [writer_registry, writer_events, Option.map_eq_some'] at hr he
    obtain ⟨res, h1, h2⟩ := hr
    obtain ⟨res2, h3, h4⟩ := he
    rw [h1] at h3; cases h3
    rw [← h2]; rw [← h4] at hw
    exact set_supported_hw_silent m ok r dev versions res h1 hw
  | put_supported_hw dev =>
    simp only [writer_registry, writer_events, Option.some.injEq] at hr he
    rw [← hr]; rw [← he] at hw
    exact put_supported_hw_silent r dev hw
  | set_prop_name m ok dev name =>
    simp only [writer_registry, writer_events, Option.map_eq_some'] at hr he
    obtain ⟨res, h1, h2⟩ := hr
    obtain ⟨res2, h3, h4⟩ := he
    rw [h1] at h3; cases h3
    rw [← h2]; rw [← h4] at hw
    exact set_prop_name_silent m ok r dev name res h1 hw
  | put_prop_name dev =>
    simp only [writer_registry, writer_events, Option.some.injEq] at hr he
    rw [← hr]; rw [← he] at hw
    exact put_prop_name_silent r dev hw
  | set_regulator m reg dev =>
    simp only [writer_registry, writer_events, Option.map_eq_some'] at hr he
    obtain ⟨res, h1, h2⟩ := hr
    obtain ⟨res2, h3, h4⟩ := he
    rw [h1] at h3; cases h3
    rw [← h2]; rw [← h4] at hw
    exact set_regulator_silent m reg r dev res h1 hw
  | put_regulator dev =>
    simp only [writer_registry, writer_events, Option.some.injEq] at hr he
    rw [← hr]; rw [← he] at hw
    exact put_regulator_silent r dev hw
  | of_remove_table dev =>
    simp only [writer_registry, writer_events, Option.some.injEq] at hr he
    rw [← hr]; rw [← he] at hw
    exact of_remove_table_silent r dev hw
  | of_add_opp_table_v2 m ms dev opp_np =>
    simp only [writer_registry, writer_events, Option.map_eq_some'] at hr he
    obtain ⟨res, h1, h2⟩ := hr
    obtain ⟨res2, h3, h4⟩ := he
    rw [h1] at h3; cases h3
    rw [← h2]; rw [← h4] at hw
    exact of_add_opp_table_v2_silent m ms r dev opp_np res h1 hw

theorem writer_events_disciplined (r : Registry) (c : writer_call) :
    (IS_ERR_OR_NULL c.dev.addr = false → (writer_events r c).isSome = true) ∧
    ∀ es, writer_events r c = some es → lock_disciplined es := by
  cases c with
  | opp_add_v1 m dev freq u_volt dynamic =>
    exact ⟨opp_add_v1_events_returns m r dev freq u_volt dynamic,
      fun es h => opp_add_v1_events_disciplined m r dev freq u_volt dynamic es h⟩
  | opp_add_static_v2 m dev np =>
    exact ⟨opp_add_static_v2_events_returns m r dev np,
      fun es h => opp_add_static_v2_events_disciplined m r dev np es h⟩
  | opp_remove dev freq =>
    refine ⟨fun _ => rfl, fun es h => ?_⟩
    simp only [writer_events, Option.some.injEq] at h
    rw [← h]; exact remove_events_disciplined r dev freq
  | opp_set_availability m dev freq a =>
    refine ⟨fun _ => rfl, fun es h => ?_⟩
    simp only [writer_events, Option.some.injEq] at h
    rw [← h]; exact set_availability_events_disciplined m r dev freq a
  | set_supported_hw m ok dev versions =>
    refine ⟨fun hdev => ?_, fun es h => ?_⟩
    · simp only [writer_events, Option.isSome_map']
      exact set_supported_hw_returns m ok r dev versions hdev
    · simp only [writer_events, Option.map_eq_some'] at h
      obtain ⟨res, h1, h2⟩ := h
      rw [← h2]; exact set_supported_hw_disciplined m ok r dev versions res h1
  | put_supported_hw dev =>
    refine ⟨fun _ => rfl, fun es h => ?_⟩
    simp only [writer_events, Option.some.injEq] at h
    rw [← h]; exact put_supported_hw_disciplined r dev
  | set_prop_name m ok dev name =>
    refine ⟨fun hdev => ?_, fun es h => ?_⟩
    · simp only [writer_events, Option.isSome_map']
      exact set_prop_name_returns m ok r dev name hdev
    · simp only [writer_events, Option.map_eq_some'] at h
      obtain ⟨res, h1, h2⟩ := h
      rw [← h2]; exact set_prop_name_disciplined m ok r dev name res h1
  | put_prop_name dev =>
    refine ⟨fun _ => rfl, fun es h => ?_⟩
    simp only [writer_events, Option.some.injEq] at h
    rw [← h]; exact put_prop_name_disciplined r dev
  | set_regulator m reg dev =>
    refine ⟨fun hdev => ?_, fun es h => ?_⟩
    · simp only [writer_events, Option.isSome_map']
      exact set_regulator_returns m reg r dev hdev
    · simp only [writer_events, Option.map_eq_some'] at h
      obtain ⟨res, h1, h2⟩ := h
      rw [← h2]; exact set_regulator_disciplined m reg r dev res h1
  | put_regulator dev =>
    refine ⟨fun _ => rfl, fun es h => ?_⟩
    simp only [writer_events, Option.some.injEq] at h
    rw [← h]; exact put_regulator_disciplined r dev
  | of_remove_table dev =>
    refine ⟨fun _ => rfl, fun es h => ?_⟩
    simp only [writer_events, Option.some.injEq] at h
    rw [← h]; exact of_remove_table_events_disciplined r dev
  | of_add_opp_table_v2 m ms dev opp_np =>
    refine ⟨fun hdev => ?_, fun es h => ?_⟩
    · simp only [writer_events, Option.isSome_map']
      exact of_add_opp_table_v2_returns m ms r dev opp_np hdev
    · simp only [writer_events, Option.map_eq_some'] at h
      obtain ⟨res, h1, h2⟩ := h
      rw [← h2]; exact of_add_opp_table_v2_disciplined m ms r dev opp_np res h1

/-- C12: every writer of core.c (_opp_add_v1 and so dev_pm_opp_add,
_opp_add_static_v2, dev_pm_opp_remove, _opp_set_availability, the set and put
calls for supported_hw, prop_name and regulator, dev_pm_opp_of_remove_table and
_of_add_opp_table_v2) returns when called for a valid device pointer, and on
every path on which it returns, success or error, each write to the device list,
to an OPP list or to a table is done while dev_opp_list_lock is held, the mutex
is never taken twice, and it is released on return; and a call that leaves the
registry changed has done one of those writes. -/
theorem C12_writers_hold_list_lock (r : Registry) (c : writer_call) :
    (IS_ERR_OR_NULL c.dev.addr = false → (writer_events r c).isSome = true) ∧
    (∀ es, writer_events r c = some es → lock_disciplined es) ∧
    (∀ es r1, writer_events r c = some es → writer_registry r c = some r1 →
      r1 ≠ r → lock_event.write ∈ es) := by
  refine ⟨(writer_events_disciplined r c).1, (writer_events_disciplined r c).2,
    fun es r1 he hr hne => ?_⟩
  by_contra hw
  exact hne (writer_registry_silent r c es r1 he hr hw)

/-- C12 at three calls: adding the first OPP of a new device takes the mutex,
links the device, the table and the OPP and releases the mutex, and the changed
registry comes with a write in its events; a failed
allocation in dev_pm_opp_enable leaves the mutex untouched; and initialising a
table from a node with one child runs three locked sections. -/
theorem C12_witness :
    writer_events [] (.opp_add_v1 alloc_ok sample_dev 1000 900 true)
      = some [.lock, .write, .write, .write, .unlock] ∧
    lock_disciplined [.lock, .write, .write, .write, .unlock] ∧
    (writer_events [] (.opp_add_v1 alloc_ok sample_dev 1000 900 true)).isSome = true ∧
    lock_disciplined [] ∧
    lock_disciplined [.lock, .unlock, .lock, .write, .write, .write, .write, .unlock,
      .lock, .write, .write, .unlock] ∧
    lock_event.write ∈ [lock_event.lock, .write, .write, .write, .unlock] :=
  ⟨by decide,
    (C12_writers_hold_list_lock [] (.opp_add_v1 alloc_ok sample_dev 1000 900 true)).2.1 _
      (by decide),
    (C12_writers_hold_list_lock [] (.opp_add_v1 alloc_ok sample_dev 1000 900 true)).1
      (by decide),
    (C12_writers_hold_list_lock [sample_table sample_opps]
      (.opp_set_availability alloc_opp_fails sample_dev 1000 true)).2.1 _ (by decide),
    (C12_writers_hold_list_lock []
      (.of_add_opp_table_v2 alloc_ok (fun _ => alloc_ok) sample_dev sample_opp_np)).2.1 _
      (by decide),
    (C12_writers_hold_list_lock [] (.opp_add_v1 alloc_ok sample_dev 1000 900 true)).2.2 _
      ((writer_registry [] (.opp_add_v1 alloc_ok sample_dev 1000 900 true)).getD [])
      (by decide) (by decide) (by decide)⟩

end OPP

namespace SMP

/-! ### CPU bring-up and frequency capacity -/

/-- C11: for a CPU that has operations, __cpu_up returns, and it returns 0
exactly when cpu_boot returned 0 and the CPU is online after the wait, -EIO
when cpu_boot returned 0 and the CPU is not online, -EOPNOTSUPP when there is
no cpu_boot operation, and else the value cpu_boot returned; in each case
secondary_data.stack is NULL on return. -/
theorem C11_cpu_up_return_value (cpu_ops : Nat → Option cpu_operations)
    (online_after_wait : Bool) (sd : secondary_data) (cpu idle_stack : Nat)
    (ops : cpu_operations) (hops : cpu_ops cpu = some ops) :
    ∃ ret, __cpu_up cpu_ops online_after_wait sd cpu idle_stack = some (ret, { stack := 0 }) ∧
      (ret = 0 ↔ ∃ boot, ops.cpu_boot = some boot ∧ boot cpu = 0 ∧ online_after_wait = true) ∧
      (∀ boot, ops.cpu_boot = some boot → boot cpu = 0 → online_after_wait = false →
        ret = - EIO) ∧
      (ops.cpu_boot = none → ret = -EOPNOTSUPP) ∧
      (∀ boot, ops.cpu_boot = some boot → boot cpu ≠ 0 → ret = boot cpu) := by
  cases hb : ops.cpu_boot with
  | none =>
    refine ⟨-EOPNOTSUPP, ?_, ?_, ?_, ?_, ?_⟩
    · simp [__cpu_up, boot_secondary, hops, hb, EOPNOTSUPP]
    · simp [EOPNOTSUPP]
    · intro boot h; cases h
    · intro _; rfl
    · intro boot h; cases h
  | some boot =>
    by_cases h0 : boot cpu = 0
    · cases online_after_wait with
      | false =>
        refine ⟨- EIO, ?_, ?_, ?_, ?_, ?_⟩
        · simp [__cpu_up, boot_secondary, hops, hb, h0]
        · simp [ EIO]
        · intro _ _ _ _; rfl
        · intro h; cases h
        · intro b hb' hne
          cases hb'
          exact absurd h0 hne
      | true =>
        refine ⟨0, ?_, ?_, ?_, ?_, ?_⟩
        · simp [__cpu_up, boot_secondary, hops, hb, h0]
        · simp [h0]
        · intro _ _ _ h; cases h
        · intro h; cases h
        · intro b hb' hne
          cases hb'
          exact absurd h0 hne
    · refine ⟨boot cpu, ?_, ?_, ?_, ?_, ?_⟩
      · simp [__cpu_up, boot_secondary, hops, hb, h0]
      · constructor
        · intro h; exact absurd h h0
        · rintro ⟨b, hb', hz, _⟩
          cases hb'
          exact hz
      · intro b hb' hz
        cases hb'
        exact absurd hz h0
      · intro h; cases h
      · intro b hb' _
        cases hb'
        rfl

/-- C11 for a CPU whose cpu_boot returns 0 and that is online after the wait:
__cpu_up returns 0 and leaves the stack pointer NULL. -/
theorem C11_witness :
    __cpu_up (fun _ => some (sample_ops 0)) true { stack := 4096 } 1 8192
      = some (0, { stack := 0 }) := by
  obtain ⟨ret, h1, h2, _⟩ := C11_cpu_up_return_value (fun _ => some (sample_ops 0)) true
    { stack := 4096 } 1 8192 (sample_ops 0) rfl
  have hret : ret = 0 := h2.mpr ⟨fun _ => 0, rfl, rfl, rfl⟩
  rw [hret] at h1
  exact h1

theorem shift_bound (curr max : Nat) (hmax : max ≠ 0) (hle : curr ≤ max) :
    ((curr <<< SCHED_CAPACITY_SHIFT) % OPP.ULONG_SIZE) / max ≤ 2 ^ SCHED_CAPACITY_SHIFT := by
  have hpos : 0 < max := Nat.pos_of_ne_zero hmax
  rw [Nat.shiftLeft_eq]
  by_cases hov : curr * 2 ^ SCHED_CAPACITY_SHIFT < OPP.ULONG_SIZE
  · rw [Nat.mod_eq_of_lt hov]
    apply Nat.div_le_of_le_mul
    exact Nat.mul_le_mul_right _ hle
  · have hlt : curr * 2 ^ SCHED_CAPACITY_SHIFT % OPP.ULONG_SIZE < OPP.ULONG_SIZE :=
      Nat.mod_lt _ (by decide)
    apply Nat.div_le_of_le_mul
    have hbig : OPP.ULONG_SIZE ≤ max * 2 ^ SCHED_CAPACITY_SHIFT := by
      have := Nat.mul_le_mul_right (2 ^ SCHED_CAPACITY_SHIFT) hle
      omega
    omega

/-- C13: scale_freq_capacity never divides by zero; with max == 0 it leaves the
per-CPU variables as they were, and otherwise it sets cpu_freq_capacity of the
CPU, and nothing else, to (curr << SCHED_CAPACITY_SHIFT) / max, which is
floor(curr * 2^SCHED_CAPACITY_SHIFT / max) when the shift does not overflow and
is at most 2^SCHED_CAPACITY_SHIFT whenever curr <= max; cpufreq_callback
always returns NOTIFY_OK, sets the capacity from the new frequency and the
stored maximum on a CPUFREQ_PRECHANGE event without the CPUFREQ_CONST_LOOPS
flag, and changes nothing on any other event. -/
theorem C13_scale_freq_capacity (s : freq_state) (cpu curr max : Nat) (val : Nat)
    (freq : cpufreq_freqs) :
    scale_freq_capacity s cpu curr 0 = some s ∧
    (max ≠ 0 → ∃ s1, scale_freq_capacity s cpu curr max = some s1 ∧
      s1.cpu_freq_capacity cpu = ((curr <<< SCHED_CAPACITY_SHIFT) % OPP.ULONG_SIZE) / max ∧
      (curr * 2 ^ SCHED_CAPACITY_SHIFT < OPP.ULONG_SIZE →
        s1.cpu_freq_capacity cpu = curr * 2 ^ SCHED_CAPACITY_SHIFT / max) ∧
      (curr ≤ max → s1.cpu_freq_capacity cpu ≤ 2 ^ SCHED_CAPACITY_SHIFT) ∧
      (∀ c, c ≠ cpu → s1.cpu_freq_capacity c = s.cpu_freq_capacity c) ∧
      s1.cpu_max_freq = s.cpu_max_freq) ∧
    (∃ s2, cpufreq_callback s val freq = some (NOTIFY_OK, s2) ∧
      ((val = CPUFREQ_PRECHANGE ∧ freq.flags &&& CPUFREQ_CONST_LOOPS = 0) →
        some s2 = scale_freq_capacity s freq.cpu freq.new (s.cpu_max_freq freq.cpu)) ∧
      (¬ (val = CPUFREQ_PRECHANGE ∧ freq.flags &&& CPUFREQ_CONST_LOOPS = 0) → s2 = s)) := by
  have hscale : ∀ (c k m : Nat), m ≠ 0 → scale_freq_capacity s c k m =
      some { s with cpu_freq_capacity := fun x =>
        if x = c then ((k <<< SCHED_CAPACITY_SHIFT) % OPP.ULONG_SIZE) / m
        else s.cpu_freq_capacity x } := by
    intro c k m hm
    simp [scale_freq_capacity, ulong_div, hm]
  refine ⟨by simp [scale_freq_capacity], ?_, ?_⟩
  · intro hmax
    refine ⟨_, hscale cpu curr max hmax, by simp, ?_, ?_, ?_, rfl⟩
    · intro hov
      simp only [if_true, Nat.shiftLeft_eq, Nat.mod_eq_of_lt hov]
    · intro hle
      simpa using shift_bound curr max hmax hle
    · intro c hc
      simp [hc]
  · by_cases hflag : freq.flags &&& CPUFREQ_CONST_LOOPS = 0
    · by_cases hval : val = CPUFREQ_PRECHANGE
      · by_cases hmax : s.cpu_max_freq freq.cpu = 0
        · refine ⟨s, ?_, ?_, ?_⟩
          · simp [cpufreq_callback, hflag, hval, hmax, scale_freq_capacity]
          · intro _
            simp [hmax, scale_freq_capacity]
          · intro _; rfl
        · refine ⟨{ s with cpu_freq_capacity := fun x =>
              if x = freq.cpu then
                ((freq.new <<< SCHED_CAPACITY_SHIFT) % OPP.ULONG_SIZE) / s.cpu_max_freq freq.cpu
              else s.cpu_freq_capacity x }, ?_, ?_, ?_⟩
          · simp only [cpufreq_callback, hflag, hval, ne_eq, not_true_eq_false, if_false,
              if_true, hscale freq.cpu freq.new _ hmax]
          · intro _
            rw [hscale freq.cpu freq.new _ hmax]
          · intro h
            exact absurd ⟨hval, hflag⟩ h
      · refine ⟨s, ?_, ?_, ?_⟩
        · simp [cpufreq_callback, hflag, hval]
        · intro h; exact absurd h.1 hval
        · intro _; rfl
    · refine ⟨s, ?_, ?_, ?_⟩
      · simp [cpufreq_callback, hflag]
      · intro h; exact absurd h.2 hflag
      · intro _; rfl

/-- C13 at a current frequency of 1000 and a maximum of 2000: the capacity of
the CPU becomes 512, through scale_freq_capacity and through the callback. -/
theorem C13_witness :
    (∃ s1, scale_freq_capacity sample_freq_state 1 1000 2000 = some s1 ∧
      s1.cpu_freq_capacity 1 = 512 ∧ s1.cpu_freq_capacity 0 = 0) ∧
    (∃ s2, cpufreq_callback sample_freq_state CPUFREQ_PRECHANGE
        { cpu := 1, old := 2000, new := 1000, flags := 0 } = some (NOTIFY_OK, s2) ∧
      some s2 = scale_freq_capacity sample_freq_state 1 1000 2000) := by
  have h := C13_scale_freq_capacity sample_freq_state 1 1000 2000 CPUFREQ_PRECHANGE
    { cpu := 1, old := 2000, new := 1000, flags := 0 }
  obtain ⟨s1, h1, h2, -, -, h5, -⟩ := h.2.1 (by decide)
  obtain ⟨s2, h6, h7, -⟩ := h.2.2
  refine ⟨⟨s1, h1, ?_, ?_⟩, ⟨s2, h6, h7 ⟨rfl, by decide⟩⟩⟩
  · rw [h2]; decide
  · rw [h5 0 (by decide)]; rfl

end SMP
